import Mathlib

/-!
Verification of the Unscented Kalman Filter implementation (src/ukf.cpp).

The development is a shallow embedding over `ℝ` of the UKF core:

* constructor configuration (state priors, noise standard deviations,
  sigma-point weights),
* the angle-normalization while-loops,
* `Prediction` (augmented sigma-point generation, the CTRV process model,
  recombination into predicted mean and covariance),
* `UpdateLidar` (linear Kalman correction) and `UpdateRadar` (unscented
  correction through the range/bearing/range-rate observation model),
* `ProcessMeasurement` (lazy initialization, then predict + update).

The one piece of the code that is not re-implemented here is Eigen's
`P_aug.llt().matrixL()` Cholesky factorization: the prediction step is
parametrized by the lower-triangular factor `L`, and theorems that depend on
its defining property carry the hypotheses `L * Lᵀ = P_aug` /
lower-triangularity, which characterize the factor Eigen computes for a
positive-definite augmented covariance.
-/

noncomputable section

open Matrix

/-- State dimension, `n_x_ = 5` (set in the constructor). -/
def n_x_ : ℕ := 5

/-- Augmented state dimension, `n_aug_ = 7` (set in the constructor). -/
def n_aug_ : ℕ := 7

/-- Sigma point spreading parameter, `lambda_ = 3 - n_aug_` (constructor). -/
def lambda_ : ℝ := 3 - (n_aug_ : ℝ)

/-- Weights of sigma points, as computed in the constructor:
`weights_(0) = lambda_ / (lambda_ + n_aug_)` and
`weights_(i) = 0.5 / (n_aug_ + lambda_)` for `i = 1 .. 2*n_aug_`. -/
def weights_ (i : Fin 15) : ℝ :=
  if i = 0 then lambda_ / (lambda_ + (n_aug_ : ℝ)) else 0.5 / ((n_aug_ : ℝ) + lambda_)

/-- The loop `while (a > M_PI) a -= 2.*M_PI;` used by the angle normalizations
in `Prediction`, `UpdateRadar`. -/
def wrapDown (x : ℝ) : ℝ :=
  if h : Real.pi < x then wrapDown (x - 2 * Real.pi) else x
termination_by (⌈(x - Real.pi) / (2 * Real.pi)⌉).toNat
decreasing_by
  have h1 : (0:ℤ) < ⌈(x - Real.pi) / (2 * Real.pi)⌉ := by
    apply Int.ceil_pos.mpr
    have hx : (0:ℝ) < x - Real.pi := by linarith
    positivity
  have he : (x - 2 * Real.pi - Real.pi) / (2 * Real.pi)
      = (x - Real.pi) / (2 * Real.pi) - 1 := by
    field_simp
    ring
  have h2 : ⌈(x - 2 * Real.pi - Real.pi) / (2 * Real.pi)⌉
      = ⌈(x - Real.pi) / (2 * Real.pi)⌉ - 1 := by
    rw [he, Int.ceil_sub_one]
  omega

/-- The loop `while (a < -M_PI) a += 2.*M_PI;` used by the angle normalizations
in `Prediction`, `UpdateRadar`. -/
def wrapUp (x : ℝ) : ℝ :=
  if h : x < -Real.pi then wrapUp (x + 2 * Real.pi) else x
termination_by (⌈(-Real.pi - x) / (2 * Real.pi)⌉).toNat
decreasing_by
  have h1 : (0:ℤ) < ⌈(-Real.pi - x) / (2 * Real.pi)⌉ := by
    apply Int.ceil_pos.mpr
    have hx : (0:ℝ) < -Real.pi - x := by linarith
    positivity
  have he : (-Real.pi - (x + 2 * Real.pi)) / (2 * Real.pi)
      = (-Real.pi - x) / (2 * Real.pi) - 1 := by
    field_simp
    ring
  have h2 : ⌈(-Real.pi - (x + 2 * Real.pi)) / (2 * Real.pi)⌉
      = ⌈(-Real.pi - x) / (2 * Real.pi)⌉ - 1 := by
    rw [he, Int.ceil_sub_one]
  omega

/-- The two consecutive while-loops used everywhere an angle difference is
normalized (first subtract `2π` while above `π`, then add `2π` while below
`-π`). -/
def normalizeAngle (x : ℝ) : ℝ := wrapUp (wrapDown x)

/-- Augmented mean state: `x_aug.head(5) = x_; x_aug(5) = 0; x_aug(6) = 0`. -/
def x_aug (x : Fin 5 → ℝ) : Fin 7 → ℝ := fun k =>
  if h : (k : ℕ) < 5 then x ⟨k, h⟩ else 0

/-- Augmented covariance: zero-filled, top-left 5×5 block is `P_`,
`P_aug(5,5) = std_a_ * std_a_`, `P_aug(6,6) = std_yawdd_ * std_yawdd_`. -/
def P_aug (P : Matrix (Fin 5) (Fin 5) ℝ) (std_a std_yawdd : ℝ) :
    Matrix (Fin 7) (Fin 7) ℝ :=
  Matrix.of fun i j =>
    if hi : (i : ℕ) < 5 then (if hj : (j : ℕ) < 5 then P ⟨i, hi⟩ ⟨j, hj⟩ else 0)
    else if (i : ℕ) = 5 ∧ (j : ℕ) = 5 then std_a * std_a
    else if (i : ℕ) = 6 ∧ (j : ℕ) = 6 then std_yawdd * std_yawdd
    else 0

/-- `sqrt(lambda_ + n_aug_)`, the sigma-point spreading factor. -/
def sqrt_lambda : ℝ := Real.sqrt (lambda_ + (n_aug_ : ℝ))

/-- Augmented sigma points: column `0` is `x_aug`; column `i+1` is
`x_aug + sqrt_lambda * L.col(i)`; column `i+1+n_aug_` is
`x_aug - sqrt_lambda * L.col(i)` (for `i = 0 .. 6`). -/
def Xsig_aug (xa : Fin 7 → ℝ) (L : Matrix (Fin 7) (Fin 7) ℝ) (j : Fin 15) :
    Fin 7 → ℝ :=
  if hj0 : (j : ℕ) = 0 then xa
  else if hj7 : (j : ℕ) ≤ 7 then
    fun k => xa k + sqrt_lambda * L k ⟨(j : ℕ) - 1, by omega⟩
  else
    fun k => xa k - sqrt_lambda * L k ⟨(j : ℕ) - 8, by have := j.isLt; omega⟩

/-- The CTRV process model applied to one augmented sigma point, exactly as in
the `predict sigma points` loop of `UKF::Prediction`: curved-arc position
update when `fabs(yawd) > 0.001`, straight-line update otherwise, followed by
the process-noise contributions. -/
def predMotion (delta_t : ℝ) (p : Fin 7 → ℝ) : Fin 5 → ℝ :=
  let p_x := p 0
  let p_y := p 1
  let v := p 2
  let yaw := p 3
  let yawd := p 4
  let nu_a := p 5
  let nu_yawdd := p 6
  let px0 := if 0.001 < |yawd| then
      p_x + v / yawd * (Real.sin (yaw + yawd * delta_t) - Real.sin yaw)
    else p_x + v * delta_t * Real.cos yaw
  let py0 := if 0.001 < |yawd| then
      p_y + v / yawd * (Real.cos yaw - Real.cos (yaw + yawd * delta_t))
    else p_y + v * delta_t * Real.sin yaw
  let px_p := px0 + 0.5 * nu_a * delta_t * delta_t * Real.cos yaw
  let py_p := py0 + 0.5 * nu_a * delta_t * delta_t * Real.sin yaw
  let v_p := v + nu_a * delta_t
  let yaw_p := yaw + yawd * delta_t + 0.5 * nu_yawdd * delta_t * delta_t
  let yawd_p := yawd + nu_yawdd * delta_t
  ![px_p, py_p, v_p, yaw_p, yawd_p]

/-- Predicted sigma points (the retained matrix `Xsig_pred_`), given the
Cholesky factor `L` of the augmented covariance. -/
def Xsig_pred (delta_t : ℝ) (x : Fin 5 → ℝ) (L : Matrix (Fin 7) (Fin 7) ℝ)
    (j : Fin 15) : Fin 5 → ℝ :=
  predMotion delta_t (Xsig_aug (x_aug x) L j)

/-- Predicted state mean: `x_ = Σ weights_(i) * Xsig_pred_.col(i)`. -/
def x_pred (delta_t : ℝ) (x : Fin 5 → ℝ) (L : Matrix (Fin 7) (Fin 7) ℝ) :
    Fin 5 → ℝ :=
  fun i => ∑ j : Fin 15, weights_ j * Xsig_pred delta_t x L j i

/-- Normalization of the heading component (index 3) of a state difference. -/
def x_diff_n (d : Fin 5 → ℝ) : Fin 5 → ℝ :=
  Function.update d 3 (normalizeAngle (d 3))

/-- Predicted state covariance:
`P_ = Σ weights_(i) * x_diff * x_diffᵀ` with the heading component of
`x_diff` normalized. -/
def P_pred (delta_t : ℝ) (x : Fin 5 → ℝ) (L : Matrix (Fin 7) (Fin 7) ℝ) :
    Matrix (Fin 5) (Fin 5) ℝ :=
  ∑ j : Fin 15, weights_ j •
    Matrix.vecMulVec
      (x_diff_n fun i => Xsig_pred delta_t x L j i - x_pred delta_t x L i)
      (x_diff_n fun i => Xsig_pred delta_t x L j i - x_pred delta_t x L i)

/-- The fixed lidar measurement matrix `H_laser`. -/
def H_laser : Matrix (Fin 2) (Fin 5) ℝ := !![1, 0, 0, 0, 0; 0, 1, 0, 0, 0]

/-- The lidar measurement noise covariance `R` from `UpdateLidar`. -/
def R_laser (std_laspx std_laspy : ℝ) : Matrix (Fin 2) (Fin 2) ℝ :=
  !![std_laspx * std_laspx, 0; 0, std_laspy * std_laspy]

/-- Result of an update step: new state mean, new covariance, and the NIS
value written for the corresponding sensor. -/
structure UpdateResult where
  x : Fin 5 → ℝ
  P : Matrix (Fin 5) (Fin 5) ℝ
  nis : ℝ

/-- `UKF::UpdateLidar`: the linear Kalman correction. -/
def UpdateLidar (std_laspx std_laspy : ℝ) (x : Fin 5 → ℝ)
    (P : Matrix (Fin 5) (Fin 5) ℝ) (z : Fin 2 → ℝ) : UpdateResult :=
  let R := R_laser std_laspx std_laspy
  let z_pred := H_laser *ᵥ x
  let y := fun i => z i - z_pred i
  let Ht := H_laserᵀ
  let S := H_laser * P * Ht + R
  let Si := S⁻¹
  let K := P * Ht * Si
  ⟨fun i => x i + (K *ᵥ y) i, (1 - K * H_laser) * P, dotProduct y (Si *ᵥ y)⟩

/-- `atan2(y, x)`, realized as the argument of the complex number `x + y·i`
(the convention of C's `atan2`: values in `(-π, π]`, `atan2 0 0 = 0`). -/
def atan2 (y x : ℝ) : ℝ := Complex.arg ⟨x, y⟩

/-- The radar measurement model applied to one predicted sigma point, as in
`UKF::UpdateRadar`: `r = sqrt(px²+py²)` replaced by `0.001` when
`fabs(r) < 0.001`; `phi = atan2(py, px)`; `r_dot = (px·v1 + py·v2)/r`. -/
def radarMeas (pt : Fin 5 → ℝ) : Fin 3 → ℝ :=
  let p_x := pt 0
  let p_y := pt 1
  let v := pt 2
  let yaw := pt 3
  let v1 := Real.cos yaw * v
  let v2 := Real.sin yaw * v
  let r0 := Real.sqrt (p_x * p_x + p_y * p_y)
  let r := if |r0| < 0.001 then 0.001 else r0
  ![r, atan2 p_y p_x, (p_x * v1 + p_y * v2) / r]

/-- Mean predicted radar measurement `z_pred = Σ weights_(i) * Zsig.col(i)`. -/
def z_pred_r (Xp : Fin 15 → Fin 5 → ℝ) : Fin 3 → ℝ :=
  fun i => ∑ j : Fin 15, weights_ j * radarMeas (Xp j) i

/-- Normalization of the bearing component (index 1) of a measurement
residual. -/
def z_diff_n (d : Fin 3 → ℝ) : Fin 3 → ℝ :=
  Function.update d 1 (normalizeAngle (d 1))

/-- The stored residual columns `z_diff` of `UpdateRadar` (bearing
normalized). -/
def z_diff_c (Xp : Fin 15 → Fin 5 → ℝ) (j : Fin 15) : Fin 3 → ℝ :=
  z_diff_n fun i => radarMeas (Xp j) i - z_pred_r Xp i

/-- The radar measurement noise covariance `R` from `UpdateRadar`. -/
def R_radar (std_radr std_radphi std_radrd : ℝ) : Matrix (Fin 3) (Fin 3) ℝ :=
  !![std_radr * std_radr, 0, 0;
     0, std_radphi * std_radphi, 0;
     0, 0, std_radrd * std_radrd]

/-- Radar innovation covariance
`S = Σ weights_(i) * z_diff.col(i) * z_diff.col(i)ᵀ + R`. -/
def S_radar (std_radr std_radphi std_radrd : ℝ) (Xp : Fin 15 → Fin 5 → ℝ) :
    Matrix (Fin 3) (Fin 3) ℝ :=
  (∑ j : Fin 15, weights_ j • Matrix.vecMulVec (z_diff_c Xp j) (z_diff_c Xp j))
    + R_radar std_radr std_radphi std_radrd

/-- Cross correlation
`Tc = Σ weights_(i) * x_diff * z_diff.col(i)ᵀ` with the heading component of
`x_diff` normalized. -/
def Tc (x : Fin 5 → ℝ) (Xp : Fin 15 → Fin 5 → ℝ) : Matrix (Fin 5) (Fin 3) ℝ :=
  ∑ j : Fin 15, weights_ j •
    Matrix.vecMulVec (x_diff_n fun i => Xp j i - x i) (z_diff_c Xp j)

/-- `UKF::UpdateRadar`: the unscented correction from the retained predicted
sigma points `Xp`. -/
def UpdateRadar (std_radr std_radphi std_radrd : ℝ) (x : Fin 5 → ℝ)
    (P : Matrix (Fin 5) (Fin 5) ℝ) (Xp : Fin 15 → Fin 5 → ℝ) (z : Fin 3 → ℝ) :
    UpdateResult :=
  let S := S_radar std_radr std_radphi std_radrd Xp
  let K := Tc x Xp * S⁻¹
  let zd := z_diff_n fun i => z i - z_pred_r Xp i
  ⟨fun i => x i + (K *ᵥ zd) i, P - K * S * Kᵀ, dotProduct zd (S⁻¹ *ᵥ zd)⟩

/-- The two sensor kinds of `MeasurementPackage`. -/
inductive SensorType
  | LASER
  | RADAR

/-- The external measurement record. -/
structure MeasurementPackage where
  sensor_type_ : SensorType
  raw_measurements_ : ℕ → ℝ
  timestamp_ : ℤ

/-- The mutable fields of the `UKF` object. -/
structure UKFState where
  is_initialized_ : Bool
  use_laser_ : Bool
  use_radar_ : Bool
  time_us_ : ℤ
  x_ : Fin 5 → ℝ
  P_ : Matrix (Fin 5) (Fin 5) ℝ
  Xsig_pred_ : Fin 15 → Fin 5 → ℝ
  NIS_laser_ : ℝ
  NIS_radar_ : ℝ

/-- `std_a_` (constructor). -/
def std_a_ : ℝ := 0.5

/-- `std_yawdd_` (constructor). -/
def std_yawdd_ : ℝ := 2

/-- `std_laspx_` (constructor). -/
def std_laspx_ : ℝ := 0.15

/-- `std_laspy_` (constructor). -/
def std_laspy_ : ℝ := 0.15

/-- `std_radr_` (constructor). -/
def std_radr_ : ℝ := 0.3

/-- `std_radphi_` (constructor). -/
def std_radphi_ : ℝ := 0.03

/-- `std_radrd_` (constructor). -/
def std_radrd_ : ℝ := 0.3

/-- Initial state vector from the constructor: `x_ << 1, 1, 9, 0, 0`. -/
def x_init : Fin 5 → ℝ := ![1, 1, 9, 0, 0]

/-- Initial covariance matrix from the constructor. -/
def P_init : Matrix (Fin 5) (Fin 5) ℝ :=
  !![0.5, 0, 0, 0, 0;
     0, 0.5, 0, 0, 0.5;
     0, 0, 0.5, 0, 0;
     0, 0, 0, 0.5, 0;
     0, 0.5, 0, 0, 0.5]

/-- `UKF::UKF()`: the constructor, with the `use_laser_` / `use_radar_` flag
values exposed as parameters (the code hardcodes `true` for both; they are
never read afterwards).  The uninitialized `Xsig_pred_` allocation is modelled
as the zero matrix. -/
def UKF_ctor (use_laser use_radar : Bool) : UKFState :=
  ⟨false, use_laser, use_radar, 0, x_init, P_init, fun _ _ => 0, 0, 0⟩

/-- `UKF::ProcessMeasurement`, parametrized by the Cholesky factorization
`chol` used inside `Prediction` (the code calls Eigen's `llt().matrixL()` on
the augmented covariance). -/
def ProcessMeasurement (chol : Matrix (Fin 7) (Fin 7) ℝ → Matrix (Fin 7) (Fin 7) ℝ)
    (s : UKFState) (m : MeasurementPackage) : UKFState :=
  if s.is_initialized_ = false then
    let x1 : Fin 5 → ℝ :=
      match m.sensor_type_ with
      | SensorType.RADAR => fun i =>
          if i = 0 then m.raw_measurements_ 0 * Real.cos (m.raw_measurements_ 1)
          else if i = 1 then m.raw_measurements_ 0 * Real.sin (m.raw_measurements_ 1)
          else s.x_ i
      | SensorType.LASER => fun i =>
          if i = 0 then m.raw_measurements_ 0
          else if i = 1 then m.raw_measurements_ 1
          else s.x_ i
    ⟨true, s.use_laser_, s.use_radar_, m.timestamp_, x1, s.P_, s.Xsig_pred_,
      s.NIS_laser_, s.NIS_radar_⟩
  else
    let dt : ℝ := ((m.timestamp_ : ℝ) - (s.time_us_ : ℝ)) / 1000000
    let L := chol (P_aug s.P_ std_a_ std_yawdd_)
    let xp := x_pred dt s.x_ L
    let Pp := P_pred dt s.x_ L
    let Xp := Xsig_pred dt s.x_ L
    match m.sensor_type_ with
    | SensorType.RADAR =>
        let r := UpdateRadar std_radr_ std_radphi_ std_radrd_ xp Pp Xp
          (fun i : Fin 3 => m.raw_measurements_ (i : ℕ))
        ⟨true, s.use_laser_, s.use_radar_, m.timestamp_, r.x, r.P, Xp,
          s.NIS_laser_, r.nis⟩
    | SensorType.LASER =>
        let r := UpdateLidar std_laspx_ std_laspy_ xp Pp
          (fun i : Fin 2 => m.raw_measurements_ (i : ℕ))
        ⟨true, s.use_laser_, s.use_radar_, m.timestamp_, r.x, r.P, Xp,
          r.nis, s.NIS_radar_⟩

/-- Processing a whole measurement sequence. -/
def runUKF (chol : Matrix (Fin 7) (Fin 7) ℝ → Matrix (Fin 7) (Fin 7) ℝ)
    (s : UKFState) : List MeasurementPackage → UKFState
  | [] => s
  | m :: ms => runUKF chol (ProcessMeasurement chol s m) ms

/-- Modelled from the spec: the lidar observation matrix "projecting state
onto (position-x, position-y)". -/
def H_spec : Matrix (Fin 2) (Fin 5) ℝ :=
  Matrix.of fun i j => if (j : ℕ) = (i : ℕ) then 1 else 0

/-- Modelled from the spec: `R = diag(std_laspx², std_laspy²)`. -/
def R_laser_spec (std_laspx std_laspy : ℝ) : Matrix (Fin 2) (Fin 2) ℝ :=
  Matrix.diagonal ![std_laspx ^ 2, std_laspy ^ 2]

/-- Modelled from the spec: the closed-form linear Kalman correction
`y = z - H·x`, `S = H·P·Hᵀ + R`, `K = P·Hᵀ·S⁻¹`, new mean `x + K·y`, new
covariance `(I - K·H)·P`, NIS `yᵀ·S⁻¹·y`. -/
def UpdateLidar_spec (std_laspx std_laspy : ℝ) (x : Fin 5 → ℝ)
    (P : Matrix (Fin 5) (Fin 5) ℝ) (z : Fin 2 → ℝ) : UpdateResult :=
  let y := fun i => z i - (H_spec *ᵥ x) i
  let S := H_spec * P * H_specᵀ + R_laser_spec std_laspx std_laspy
  let K := P * H_specᵀ * S⁻¹
  ⟨fun i => x i + (K *ᵥ y) i, (1 - K * H_spec) * P, dotProduct y (S⁻¹ *ᵥ y)⟩

/-- Modelled from the spec: the radar observation model — range
`√(px²+py²)` floored at `0.001`, bearing `atan2(py, px)`, range-rate
`(px·vx + py·vy)/range` with `vx = v·cos(yaw)`, `vy = v·sin(yaw)`. -/
def radarMeas_spec (pt : Fin 5 → ℝ) : Fin 3 → ℝ :=
  let range := max 0.001 (Real.sqrt (pt 0 ^ 2 + pt 1 ^ 2))
  let vx := pt 2 * Real.cos (pt 3)
  let vy := pt 2 * Real.sin (pt 3)
  ![range, atan2 (pt 1) (pt 0), (pt 0 * vx + pt 1 * vy) / range]

/-- Modelled from the spec: `R = diag(std_radr², std_radphi², std_radrd²)`. -/
def R_radar_spec (std_radr std_radphi std_radrd : ℝ) : Matrix (Fin 3) (Fin 3) ℝ :=
  Matrix.diagonal ![std_radr ^ 2, std_radphi ^ 2, std_radrd ^ 2]

/-- Modelled from the spec: the whole radar update — weighted predicted
measurement mean, `S` from bearing-normalized weighted residual outer
products plus `R`, cross-correlation `Tc` from heading-normalized state
deviations and the same residuals, `K = Tc·S⁻¹`, mean `+= K·residual`,
covariance `-= K·S·Kᵀ`, NIS `residualᵀ·S⁻¹·residual`. -/
def UpdateRadar_spec (std_radr std_radphi std_radrd : ℝ) (x : Fin 5 → ℝ)
    (P : Matrix (Fin 5) (Fin 5) ℝ) (Xp : Fin 15 → Fin 5 → ℝ) (z : Fin 3 → ℝ) :
    UpdateResult :=
  let zp := fun i => ∑ j : Fin 15, weights_ j * radarMeas_spec (Xp j) i
  let zd := fun j : Fin 15 => z_diff_n fun i => radarMeas_spec (Xp j) i - zp i
  let S := (∑ j : Fin 15, weights_ j • Matrix.vecMulVec (zd j) (zd j))
    + R_radar_spec std_radr std_radphi std_radrd
  let T := ∑ j : Fin 15, weights_ j •
    Matrix.vecMulVec (x_diff_n fun i => Xp j i - x i) (zd j)
  let K := T * S⁻¹
  let res := z_diff_n fun i => z i - zp i
  ⟨fun i => x i + (K *ᵥ res) i, P - K * S * Kᵀ, dotProduct res (S⁻¹ *ᵥ res)⟩

/-- Helper for C10: replace only the two sensor-enable flags of a state. -/
def withFlags (s : UKFState) (ul ur : Bool) : UKFState :=
  ⟨s.is_initialized_, ul, ur, s.time_us_, s.x_, s.P_, s.Xsig_pred_,
    s.NIS_laser_, s.NIS_radar_⟩

/-- Embedding of a core-state index into the augmented-state index space. -/
def lift57 (i : Fin 5) : Fin 7 := ⟨(i : ℕ), by omega⟩

/-- C5 counterexample input: the zero state mean. -/
def x_cex5 : Fin 5 → ℝ := fun _ => 0

/-- C5 counterexample input: a diagonal covariance with yaw variance `4`. -/
def P_cex5 : Matrix (Fin 5) (Fin 5) ℝ :=
  Matrix.diagonal fun i => if i = 3 then 4 else 1

/-- C5 counterexample input: the (unique) Cholesky factor of the zero-noise
augmented covariance built from `P_cex5`. -/
def L_cex5 : Matrix (Fin 7) (Fin 7) ℝ :=
  Matrix.diagonal fun i => if i = 3 then 2 else if (i : ℕ) < 5 then 1 else 0

/-- C3/radar counterexample input: state mean on the x-axis. -/
def x_cex3 : Fin 5 → ℝ := fun i => if i = 0 then 1 else 0

/-- C3/radar counterexample input: a (positive definite) covariance. -/
def P_cex3 : Matrix (Fin 5) (Fin 5) ℝ := Matrix.diagonal fun _ => 1 / 100

/-- C3/radar counterexample input: retained predicted sigma points, all on
the positive x-axis. -/
def Xp_cex3 : Fin 15 → Fin 5 → ℝ := fun j i =>
  if i = 0 then (if j = 1 then 1.5 else if j = 8 then 0.5 else 1) else 0

/-- C3/radar counterexample input: the radar measurement. -/
def z_cex3 : Fin 3 → ℝ := fun i => if i = 0 then 1 else 0

/-- C3/prediction counterexample: the yaw entry of the shared Cholesky
columns, `π/√3` (so a spread column perturbs the heading by exactly `π`). -/
def g_cexp : ℝ := Real.pi / Real.sqrt 3

/-- C3/prediction counterexample: the turn-rate diagonal entry, `0.001/√3`
(so the spread stays on the straight-line branch). -/
def h_cexp : ℝ := 0.001 / Real.sqrt 3

/-- C3/prediction counterexample: the 5×5 factor of the state covariance. -/
def L5_cexp : Matrix (Fin 5) (Fin 5) ℝ :=
  Matrix.of fun i j =>
    if (i : ℕ) = 3 ∧ (j : ℕ) ≤ 3 then g_cexp
    else if i = j then (if (i : ℕ) ≤ 2 then 0.1 else h_cexp)
    else 0

/-- C3/prediction counterexample: the state covariance (positive definite). -/
def P_cexp : Matrix (Fin 5) (Fin 5) ℝ := L5_cexp * L5_cexpᵀ

/-- C3/prediction counterexample: the Cholesky factor of the augmented
covariance built from `P_cexp` and the default noise deviations `0.5`, `2`. -/
def L_cexp : Matrix (Fin 7) (Fin 7) ℝ :=
  Matrix.of fun i j =>
    if (i : ℕ) = 3 ∧ (j : ℕ) ≤ 3 then g_cexp
    else if i = j then
      (if (i : ℕ) ≤ 2 then 0.1
       else if (i : ℕ) = 4 then h_cexp
       else if (i : ℕ) = 5 then 0.5
       else 2)
    else 0

/-- C3/prediction counterexample: the state mean (speed 3, heading 0). -/
def x_cexp : Fin 5 → ℝ := fun i => if i = 2 then 3 else 0

/-! Basic facts about the angle-normalization loops. -/

theorem wrapDown_of_le {x : ℝ} (h : x ≤ Real.pi) : wrapDown x = x := by
  rw [wrapDown]
  simp [not_lt.mpr h]

theorem wrapUp_of_ge {x : ℝ} (h : -Real.pi ≤ x) : wrapUp x = x := by
  rw [wrapUp]
  simp [not_lt.mpr h]

theorem wrapDown_cases (x : ℝ) :
    (wrapDown x = x ∧ x ≤ Real.pi) ∨
    (-Real.pi < wrapDown x ∧ wrapDown x ≤ Real.pi) := by
  induction x using wrapDown.induct with
  | case1 x h ih =>
      have hx : wrapDown x = wrapDown (x - 2 * Real.pi) := by
        rw [wrapDown]
        simp [h]
      rcases ih with ⟨he, hle⟩ | ⟨h1, h2⟩
      · right
        rw [hx, he]
        constructor <;> linarith [Real.pi_pos]
      · right
        rw [hx]
        exact ⟨h1, h2⟩
  | case2 x h =>
      left
      exact ⟨wrapDown_of_le (not_lt.mp h), not_lt.mp h⟩

theorem wrapUp_cases (x : ℝ) :
    (wrapUp x = x ∧ -Real.pi ≤ x) ∨
    (-Real.pi ≤ wrapUp x ∧ wrapUp x < Real.pi) := by
  induction x using wrapUp.induct with
  | case1 x h ih =>
      have hx : wrapUp x = wrapUp (x + 2 * Real.pi) := by
        rw [wrapUp]
        simp [h]
      rcases ih with ⟨he, hge⟩ | ⟨h1, h2⟩
      · right
        rw [hx, he]
        constructor <;> linarith [Real.pi_pos]
      · right
        rw [hx]
        exact ⟨h1, h2⟩
  | case2 x h =>
      left
      exact ⟨wrapUp_of_ge (not_lt.mp h), not_lt.mp h⟩

/-- An angle already in `[-π, π]` is left unchanged by the normalization. -/
theorem normalizeAngle_of_mem {x : ℝ} (h1 : -Real.pi ≤ x) (h2 : x ≤ Real.pi) :
    normalizeAngle x = x := by
  rw [normalizeAngle, wrapDown_of_le h2, wrapUp_of_ge h1]

/-- C4 (amended): the normalization lands in the closed interval `[-π, π]`. -/
theorem normalizeAngle_bounds_aux (x : ℝ) :
    -Real.pi ≤ normalizeAngle x ∧ normalizeAngle x ≤ Real.pi := by
  rw [normalizeAngle]
  rcases wrapDown_cases x with ⟨he, hle⟩ | ⟨h1, h2⟩
  · rcases wrapUp_cases (wrapDown x) with ⟨he2, hge⟩ | ⟨g1, g2⟩
    · rw [he2, he]
      exact ⟨by rw [he] at hge; exact hge, hle⟩
    · exact ⟨g1, le_of_lt g2⟩
  · rw [wrapUp_of_ge (le_of_lt h1)]
    exact ⟨le_of_lt h1, h2⟩

/-- C4: (amended) for every input angle, the normalization procedure used for
heading differences in the prediction covariance and for bearing residuals in
the radar update produces a result lying in the closed interval `[-π, π]`. -/
theorem normalizeAngle_mem_Icc (x : ℝ) :
    normalizeAngle x ∈ Set.Icc (-Real.pi) Real.pi :=
  normalizeAngle_bounds_aux x

/-- C4 counterexample: at the input `-π` the normalization returns `-π`
itself, which does not lie in the claimed half-open interval `(-π, π]`. -/
theorem normalizeAngle_neg_pi_cex :
    normalizeAngle (-Real.pi) = -Real.pi ∧
    ¬ (-Real.pi < normalizeAngle (-Real.pi) ∧
        normalizeAngle (-Real.pi) ≤ Real.pi) := by
  have h : normalizeAngle (-Real.pi) = -Real.pi :=
    normalizeAngle_of_mem (le_refl _) (by linarith [Real.pi_pos])
  refine ⟨h, ?_⟩
  rw [h]
  simp

/-- Helper: the nonzero-index weights all equal `1 / (2 (λ + n_aug))`. -/
theorem weights_ne_zero {i : Fin 15} (hi : i ≠ 0) :
    weights_ i = 1 / (2 * (lambda_ + (n_aug_ : ℝ))) := by
  rw [weights_, if_neg hi]
  norm_num [lambda_, n_aug_]

/-- Helper: the weights sum to one. -/
theorem weights_sum : ∑ i : Fin 15, weights_ i = 1 := by
  simp +decide [Fin.sum_univ_succ, weights_, lambda_, n_aug_]
  norm_num

/-- C7: the weight vector computed at construction has
`weights_(0) = λ/(λ+n_aug)`, `weights_(i) = 1/(2(λ+n_aug))` for `i ≠ 0`,
and the 15 weights sum to exactly 1. -/
theorem weights_values_and_sum :
    weights_ 0 = lambda_ / (lambda_ + (n_aug_ : ℝ)) ∧
    (∀ i : Fin 15, i ≠ 0 → weights_ i = 1 / (2 * (lambda_ + (n_aug_ : ℝ)))) ∧
    ∑ i : Fin 15, weights_ i = 1 :=
  ⟨by rw [weights_, if_pos rfl], fun _ hi => weights_ne_zero hi, weights_sum⟩

/-- C7 witness: the theorem instantiated at index 1. -/
theorem weights_values_witness :
    weights_ 1 = 1 / (2 * (lambda_ + (n_aug_ : ℝ))) :=
  weights_values_and_sum.2.1 1 (by decide)

/-- Helper (sigma-point mean recovery): the weighted mean of the generated
augmented sigma points is exactly the augmented mean, for any factor `L`. -/
theorem sigma_mean_recovery (xa : Fin 7 → ℝ) (L : Matrix (Fin 7) (Fin 7) ℝ)
    (k : Fin 7) :
    ∑ j : Fin 15, weights_ j * Xsig_aug xa L j k = xa k := by
  have e3 : (Fin.succ 2 : Fin 7) = 3 := rfl
  have e4 : ((Fin.succ 2).succ : Fin 7) = 4 := rfl
  have e5 : ((Fin.succ 2).succ.succ : Fin 7) = 5 := rfl
  have e6 : ((Fin.succ 2).succ.succ.succ : Fin 7) = 6 := rfl
  simp +decide [Fin.sum_univ_succ, Xsig_aug, weights_, lambda_, n_aug_, e3, e4, e5, e6]
  ring

/-- C6: for every augmented mean and every factor `L`, the weighted mean of
the 15 generated (pre-propagation) sigma points exactly equals the augmented
mean used to generate them. -/
theorem Xsig_aug_weighted_mean (xa : Fin 7 → ℝ) (L : Matrix (Fin 7) (Fin 7) ℝ) :
    (fun k => ∑ j : Fin 15, weights_ j * Xsig_aug xa L j k) = xa :=
  funext fun k => sigma_mean_recovery xa L k

/-- Helper: the straight-line branch of the process model (taken when
`fabs(yawd) ≤ 0.001`). -/
theorem predMotion_straight (delta_t : ℝ) (p : Fin 7 → ℝ)
    (h : |p 4| ≤ 0.001) :
    predMotion delta_t p =
      ![p 0 + p 2 * delta_t * Real.cos (p 3)
          + 0.5 * p 5 * delta_t * delta_t * Real.cos (p 3),
        p 1 + p 2 * delta_t * Real.sin (p 3)
          + 0.5 * p 5 * delta_t * delta_t * Real.sin (p 3),
        p 2 + p 5 * delta_t,
        p 3 + p 4 * delta_t + 0.5 * p 6 * delta_t * delta_t,
        p 4 + p 6 * delta_t] := by
  simp only [predMotion, if_neg (not_lt.mpr h)]

/-- Helper: the curved-arc branch of the process model (taken when
`fabs(yawd) > 0.001`). -/
theorem predMotion_curved (delta_t : ℝ) (p : Fin 7 → ℝ)
    (h : 0.001 < |p 4|) :
    predMotion delta_t p =
      ![p 0 + p 2 / p 4 * (Real.sin (p 3 + p 4 * delta_t) - Real.sin (p 3))
          + 0.5 * p 5 * delta_t * delta_t * Real.cos (p 3),
        p 1 + p 2 / p 4 * (Real.cos (p 3) - Real.cos (p 3 + p 4 * delta_t))
          + 0.5 * p 5 * delta_t * delta_t * Real.sin (p 3),
        p 2 + p 5 * delta_t,
        p 3 + p 4 * delta_t + 0.5 * p 6 * delta_t * delta_t,
        p 4 + p 6 * delta_t] := by
  simp only [predMotion, if_pos h]

/-- Helper: with `Δt = 0` the process model is the identity on the first five
(state) components of the sigma point. -/
theorem predMotion_zero (p : Fin 7 → ℝ) :
    predMotion 0 p = ![p 0, p 1, p 2, p 3, p 4] := by
  rcases le_or_lt (|p 4|) 0.001 with h | h
  · rw [predMotion_straight 0 p h]
    norm_num
  · rw [predMotion_curved 0 p h]
    norm_num

/-- Helper: the stored radar range component is at least `0.001`. -/
theorem radarMeas_range_ge (pt : Fin 5 → ℝ) : 0.001 ≤ radarMeas pt 0 := by
  simp only [radarMeas, Matrix.cons_val_zero]
  split
  · exact le_refl _
  · next hr =>
      have h0 : 0 ≤ Real.sqrt (pt 0 * pt 0 + pt 1 * pt 1) := Real.sqrt_nonneg _
      rw [not_lt, abs_of_nonneg h0] at hr
      exact hr

/-- Helper: the radar range-rate component divides by the clamped range. -/
theorem radarMeas_rdot (pt : Fin 5 → ℝ) :
    radarMeas pt 2 =
      (pt 0 * (Real.cos (pt 3) * pt 2) + pt 1 * (Real.sin (pt 3) * pt 2))
        / radarMeas pt 0 := by
  simp only [radarMeas]
  norm_num

/-- C9: no division by zero in the core.  During sigma-point propagation the
division by the turn-rate `p 4` happens only in the curved branch, which is
taken only when `0.001 < |p 4|` (so `p 4 ≠ 0`); when `|p 4| ≤ 0.001` the
division-free straight-line formula is used.  In the radar measurement
mapping, the stored range — the divisor of the range-rate — is at least
`0.001`. -/
theorem no_division_by_zero_guards :
    (∀ (delta_t : ℝ) (p : Fin 7 → ℝ), |p 4| ≤ 0.001 →
      predMotion delta_t p =
        ![p 0 + p 2 * delta_t * Real.cos (p 3)
            + 0.5 * p 5 * delta_t * delta_t * Real.cos (p 3),
          p 1 + p 2 * delta_t * Real.sin (p 3)
            + 0.5 * p 5 * delta_t * delta_t * Real.sin (p 3),
          p 2 + p 5 * delta_t,
          p 3 + p 4 * delta_t + 0.5 * p 6 * delta_t * delta_t,
          p 4 + p 6 * delta_t]) ∧
    (∀ (delta_t : ℝ) (p : Fin 7 → ℝ), 0.001 < |p 4| →
      p 4 ≠ 0 ∧
      predMotion delta_t p =
        ![p 0 + p 2 / p 4 * (Real.sin (p 3 + p 4 * delta_t) - Real.sin (p 3))
            + 0.5 * p 5 * delta_t * delta_t * Real.cos (p 3),
          p 1 + p 2 / p 4 * (Real.cos (p 3) - Real.cos (p 3 + p 4 * delta_t))
            + 0.5 * p 5 * delta_t * delta_t * Real.sin (p 3),
          p 2 + p 5 * delta_t,
          p 3 + p 4 * delta_t + 0.5 * p 6 * delta_t * delta_t,
          p 4 + p 6 * delta_t]) ∧
    (∀ pt : Fin 5 → ℝ,
      0.001 ≤ radarMeas pt 0 ∧ radarMeas pt 0 ≠ 0 ∧
      radarMeas pt 2 =
        (pt 0 * (Real.cos (pt 3) * pt 2) + pt 1 * (Real.sin (pt 3) * pt 2))
          / radarMeas pt 0) := by
  refine ⟨predMotion_straight, fun delta_t p h => ⟨?_, predMotion_curved delta_t p h⟩,
    fun pt => ⟨radarMeas_range_ge pt, ?_, radarMeas_rdot pt⟩⟩
  · intro h0
    rw [h0] at h
    norm_num at h
  · have := radarMeas_range_ge pt
    intro h0
    rw [h0] at this
    norm_num at this

/-- C9 witness: the guards instantiated at the zero sigma point / state. -/
theorem no_division_witness :
    predMotion 1 (fun _ => 0) =
      ![(0:ℝ) + 0 * 1 * Real.cos 0 + 0.5 * 0 * 1 * 1 * Real.cos 0,
        0 + 0 * 1 * Real.sin 0 + 0.5 * 0 * 1 * 1 * Real.sin 0,
        0 + 0 * 1,
        0 + 0 * 1 + 0.5 * 0 * 1 * 1,
        0 + 0 * 1] ∧
    0.001 ≤ radarMeas (fun _ => 0) 0 := by
  constructor
  · exact no_division_by_zero_guards.1 1 (fun _ => 0) (by norm_num)
  · exact (no_division_by_zero_guards.2.2 (fun _ => 0)).1

/-- Helper: the code's literal `H_laser` is the position projection. -/
theorem H_laser_eq : H_laser = H_spec := by
  ext i j
  fin_cases i <;> fin_cases j <;> simp +decide [H_laser, H_spec]

/-- Helper: the code's literal lidar `R` is the diagonal of squared noise
standard deviations. -/
theorem R_laser_eq (std_laspx std_laspy : ℝ) :
    R_laser std_laspx std_laspy = R_laser_spec std_laspx std_laspy := by
  ext i j
  fin_cases i <;> fin_cases j <;>
    simp [R_laser, R_laser_spec, Matrix.diagonal, sq]

/-- C1: for every predicted mean, covariance and lidar measurement,
`UpdateLidar` computes exactly the closed-form linear Kalman correction with
`H` the projection onto the two position components and
`R = diag(std_laspx², std_laspy²)`. -/
theorem UpdateLidar_is_linear_kalman (std_laspx std_laspy : ℝ) (x : Fin 5 → ℝ)
    (P : Matrix (Fin 5) (Fin 5) ℝ) (z : Fin 2 → ℝ) :
    UpdateLidar std_laspx std_laspy x P z =
      UpdateLidar_spec std_laspx std_laspy x P z := by
  simp only [UpdateLidar, UpdateLidar_spec, H_laser_eq, R_laser_eq]

/-- Helper: the code's radar measurement mapping agrees with the spec's
`max`-floored formulation. -/
theorem radarMeas_eq : radarMeas = radarMeas_spec := by
  funext pt i
  have hs : Real.sqrt (pt 0 * pt 0 + pt 1 * pt 1)
      = Real.sqrt (pt 0 ^ 2 + pt 1 ^ 2) := by
    ring_nf
  have h0 : (0:ℝ) ≤ Real.sqrt (pt 0 ^ 2 + pt 1 ^ 2) := Real.sqrt_nonneg _
  have hr : (if |Real.sqrt (pt 0 * pt 0 + pt 1 * pt 1)| < 0.001 then (0.001:ℝ)
        else Real.sqrt (pt 0 * pt 0 + pt 1 * pt 1))
      = max 0.001 (Real.sqrt (pt 0 ^ 2 + pt 1 ^ 2)) := by
    rw [hs, abs_of_nonneg h0]
    rcases lt_or_le (Real.sqrt (pt 0 ^ 2 + pt 1 ^ 2)) 0.001 with h | h
    · rw [if_pos h]
      exact (max_eq_left (le_of_lt h)).symm
    · rw [if_neg (not_lt.mpr h)]
      exact (max_eq_right h).symm
  fin_cases i
  · simpa [radarMeas, radarMeas_spec] using hr
  · simp [radarMeas, radarMeas_spec]
  · simp [radarMeas, radarMeas_spec, hr]
    ring_nf

/-- Helper: the code's literal radar `R` is the diagonal of the squared noise
standard deviations. -/
theorem R_radar_eq (std_radr std_radphi std_radrd : ℝ) :
    R_radar std_radr std_radphi std_radrd
      = R_radar_spec std_radr std_radphi std_radrd := by
  ext i j
  fin_cases i <;> fin_cases j <;>
    simp [R_radar, R_radar_spec, Matrix.diagonal, sq, Matrix.vecHead,
      Matrix.vecTail]

/-- C2: for every retained predicted sigma-point set and radar measurement,
`UpdateRadar` computes exactly the spec's unscented correction. -/
theorem UpdateRadar_is_unscented_correction (std_radr std_radphi std_radrd : ℝ)
    (x : Fin 5 → ℝ) (P : Matrix (Fin 5) (Fin 5) ℝ) (Xp : Fin 15 → Fin 5 → ℝ)
    (z : Fin 3 → ℝ) :
    UpdateRadar std_radr std_radphi std_radrd x P Xp z =
      UpdateRadar_spec std_radr std_radphi std_radrd x P Xp z := by
  simp only [UpdateRadar, UpdateRadar_spec, S_radar, Tc, z_diff_c, z_pred_r,
    radarMeas_eq, R_radar_eq]

/-- C8: on the very first measurement, `ProcessMeasurement` only overwrites
the two position components of the state mean (from polar coordinates for
radar, by direct copy for laser), leaves speed/heading/turn-rate at their
priors `9, 0, 0` and the covariance at its prior, marks the filter
initialized, records the timestamp, and performs no prediction and no
update (predicted sigma points and both NIS values are untouched). -/
theorem first_measurement_initializes
    (chol : Matrix (Fin 7) (Fin 7) ℝ → Matrix (Fin 7) (Fin 7) ℝ)
    (use_laser use_radar : Bool) (m : MeasurementPackage) :
    (ProcessMeasurement chol (UKF_ctor use_laser use_radar) m).is_initialized_ = true ∧
    (ProcessMeasurement chol (UKF_ctor use_laser use_radar) m).time_us_ = m.timestamp_ ∧
    (m.sensor_type_ = SensorType.RADAR →
      (ProcessMeasurement chol (UKF_ctor use_laser use_radar) m).x_ 0
          = m.raw_measurements_ 0 * Real.cos (m.raw_measurements_ 1) ∧
      (ProcessMeasurement chol (UKF_ctor use_laser use_radar) m).x_ 1
          = m.raw_measurements_ 0 * Real.sin (m.raw_measurements_ 1)) ∧
    (m.sensor_type_ = SensorType.LASER →
      (ProcessMeasurement chol (UKF_ctor use_laser use_radar) m).x_ 0
          = m.raw_measurements_ 0 ∧
      (ProcessMeasurement chol (UKF_ctor use_laser use_radar) m).x_ 1
          = m.raw_measurements_ 1) ∧
    (ProcessMeasurement chol (UKF_ctor use_laser use_radar) m).x_ 2 = 9 ∧
    (ProcessMeasurement chol (UKF_ctor use_laser use_radar) m).x_ 3 = 0 ∧
    (ProcessMeasurement chol (UKF_ctor use_laser use_radar) m).x_ 4 = 0 ∧
    (ProcessMeasurement chol (UKF_ctor use_laser use_radar) m).P_ = P_init ∧
    (ProcessMeasurement chol (UKF_ctor use_laser use_radar) m).Xsig_pred_
        = (UKF_ctor use_laser use_radar).Xsig_pred_ ∧
    (ProcessMeasurement chol (UKF_ctor use_laser use_radar) m).NIS_laser_ = 0 ∧
    (ProcessMeasurement chol (UKF_ctor use_laser use_radar) m).NIS_radar_ = 0 := by
  rcases m with ⟨st, raw, ts⟩
  cases st <;> simp +decide [ProcessMeasurement, UKF_ctor, x_init]

/-- C8 witness: scenario A of the spec — first radar measurement with
range 5, bearing 0 initializes the position to `(5, 0)`. -/
theorem first_measurement_witness :
    (ProcessMeasurement (fun M => M) (UKF_ctor true true)
        ⟨SensorType.RADAR, fun n => if n = 0 then 5 else 0, 42⟩).x_ 0 = 5 ∧
    (ProcessMeasurement (fun M => M) (UKF_ctor true true)
        ⟨SensorType.RADAR, fun n => if n = 0 then 5 else 0, 42⟩).x_ 1 = 0 := by
  have h := (first_measurement_initializes (fun M => M) true true
    ⟨SensorType.RADAR, fun n => if n = 0 then 5 else 0, 42⟩).2.2.1 rfl
  rcases h with ⟨h0, h1⟩
  constructor
  · rw [h0]
    norm_num
  · rw [h1]
    norm_num

/-- Helper for C10: `ProcessMeasurement` never reads `use_laser_` or
`use_radar_`, so it commutes with replacing them. -/
theorem ProcessMeasurement_withFlags
    (chol : Matrix (Fin 7) (Fin 7) ℝ → Matrix (Fin 7) (Fin 7) ℝ)
    (s : UKFState) (m : MeasurementPackage) (ul ur : Bool) :
    ProcessMeasurement chol (withFlags s ul ur) m
      = withFlags (ProcessMeasurement chol s m) ul ur := by
  rcases m with ⟨st, raw, ts⟩
  by_cases h : s.is_initialized_ = false <;> cases st <;>
    simp [ProcessMeasurement, withFlags, h]

/-- Helper for C10: the same, lifted to whole measurement sequences. -/
theorem runUKF_withFlags
    (chol : Matrix (Fin 7) (Fin 7) ℝ → Matrix (Fin 7) (Fin 7) ℝ)
    (ms : List MeasurementPackage) (s : UKFState) (ul ur : Bool) :
    runUKF chol (withFlags s ul ur) ms = withFlags (runUKF chol s ms) ul ur := by
  induction ms generalizing s with
  | nil => rfl
  | cons m ms ih => rw [runUKF, runUKF, ProcessMeasurement_withFlags, ih]

/-- C10: for every measurement sequence, the outputs of the filter (state
mean, covariance, both NIS values, recorded timestamp) are identical
regardless of the `use_laser_` / `use_radar_` flag values: the flags are set
in the constructor but never consulted. -/
theorem flags_never_consulted
    (chol : Matrix (Fin 7) (Fin 7) ℝ → Matrix (Fin 7) (Fin 7) ℝ)
    (ms : List MeasurementPackage) (ul ur ul' ur' : Bool) :
    (runUKF chol (UKF_ctor ul ur) ms).x_
        = (runUKF chol (UKF_ctor ul' ur') ms).x_ ∧
    (runUKF chol (UKF_ctor ul ur) ms).P_
        = (runUKF chol (UKF_ctor ul' ur') ms).P_ ∧
    (runUKF chol (UKF_ctor ul ur) ms).NIS_laser_
        = (runUKF chol (UKF_ctor ul' ur') ms).NIS_laser_ ∧
    (runUKF chol (UKF_ctor ul ur) ms).NIS_radar_
        = (runUKF chol (UKF_ctor ul' ur') ms).NIS_radar_ ∧
    (runUKF chol (UKF_ctor ul ur) ms).time_us_
        = (runUKF chol (UKF_ctor ul' ur') ms).time_us_ := by
  have h1 : UKF_ctor ul ur = withFlags (UKF_ctor true true) ul ur := rfl
  have h2 : UKF_ctor ul' ur' = withFlags (UKF_ctor true true) ul' ur' := rfl
  rw [h1, h2, runUKF_withFlags, runUKF_withFlags]
  simp [withFlags]

/-- Helper: reading the first five components of an augmented vector. -/
theorem vec5_apply (p : Fin 7 → ℝ) (i : Fin 5) :
    ![p 0, p 1, p 2, p 3, p 4] i = p (lift57 i) := by
  fin_cases i <;> rfl

/-- Helper: the augmented mean restricted to the core components. -/
theorem x_aug_lift (x : Fin 5 → ℝ) (i : Fin 5) : x_aug x (lift57 i) = x i := by
  simp [x_aug, lift57]

/-- Helper: with `Δt = 0` the predicted mean is exactly the current mean, for
every factor `L` (weighted-mean recovery through the identity propagation). -/
theorem x_pred_zero (x : Fin 5 → ℝ) (L : Matrix (Fin 7) (Fin 7) ℝ) :
    x_pred 0 x L = x := by
  funext i
  rw [x_pred]
  have h : ∀ j : Fin 15, Xsig_pred 0 x L j i = Xsig_aug (x_aug x) L j (lift57 i) := by
    intro j
    rw [Xsig_pred, predMotion_zero, vec5_apply]
  simp only [h]
  rw [sigma_mean_recovery, x_aug_lift]

/-- Helper: with `Δt = 0` the deviation of sigma point `j` from the predicted
mean is the generated deviation itself. -/
theorem dev_zero (x : Fin 5 → ℝ) (L : Matrix (Fin 7) (Fin 7) ℝ) (j : Fin 15) :
    (fun i => Xsig_pred 0 x L j i - x_pred 0 x L i)
      = fun i => Xsig_aug (x_aug x) L j (lift57 i) - x i := by
  funext i
  rw [x_pred_zero, Xsig_pred, predMotion_zero, vec5_apply]

/-- Helper: the `Δt = 0` covariance recombination, written over the generated
deviations. -/
theorem P_pred_zero_eq (x : Fin 5 → ℝ) (L : Matrix (Fin 7) (Fin 7) ℝ) :
    P_pred 0 x L = ∑ j : Fin 15, weights_ j •
      Matrix.vecMulVec
        (x_diff_n fun i => Xsig_aug (x_aug x) L j (lift57 i) - x i)
        (x_diff_n fun i => Xsig_aug (x_aug x) L j (lift57 i) - x i) := by
  simp only [P_pred, dev_zero]

/-- Helper: the squared spreading factor is `λ + n_aug = 3`. -/
theorem sqrt_lambda_sq : sqrt_lambda * sqrt_lambda = 3 := by
  rw [sqrt_lambda]
  rw [Real.mul_self_sqrt (by norm_num [lambda_, n_aug_])]
  norm_num [lambda_, n_aug_]

/-- Helper: at `Δt = 0`, if `L` is a factor of the zero-noise augmented
covariance and every generated yaw deviation stays inside `[-π, π]`, the
recombined covariance is exactly `P`. -/
theorem P_pred_zero_of_factor (x : Fin 5 → ℝ) (P : Matrix (Fin 5) (Fin 5) ℝ)
    (L : Matrix (Fin 7) (Fin 7) ℝ) (hL : L * Lᵀ = P_aug P 0 0)
    (habs : ∀ c : Fin 7, |sqrt_lambda * L 3 c| ≤ Real.pi) :
    P_pred 0 x L = P := by
  have hnorm : ∀ j : Fin 15,
      x_diff_n (fun i => Xsig_aug (x_aug x) L j (lift57 i) - x i)
        = fun i => Xsig_aug (x_aug x) L j (lift57 i) - x i := by
    intro j
    have hb : |Xsig_aug (x_aug x) L j (lift57 3) - x 3| ≤ Real.pi := by
      fin_cases j <;>
        simp +decide [Xsig_aug, x_aug_lift, abs_neg] <;>
        first
          | exact Real.pi_nonneg
          | exact habs _
    rw [x_diff_n]
    have hb' := abs_le.mp hb
    rw [normalizeAngle_of_mem hb'.1 hb'.2]
    exact Function.update_eq_self 3 _
  have e3 : (Fin.succ 2 : Fin 7) = 3 := rfl
  have e4 : ((Fin.succ 2).succ : Fin 7) = 4 := rfl
  have e5 : ((Fin.succ 2).succ.succ : Fin 7) = 5 := rfl
  have e6 : ((Fin.succ 2).succ.succ.succ : Fin 7) = 6 := rfl
  ext i k
  rw [P_pred_zero_eq]
  simp only [hnorm]
  rw [Matrix.sum_apply]
  simp only [Matrix.smul_apply, Matrix.vecMulVec_apply, smul_eq_mul]
  have hP : P i k = ∑ c : Fin 7, L (lift57 i) c * L (lift57 k) c := by
    have h1 := congrArg (fun M => M (lift57 i) (lift57 k)) hL
    simp only [Matrix.mul_apply, Matrix.transpose_apply] at h1
    have h2 : P_aug P 0 0 (lift57 i) (lift57 k) = P i k := by
      simp only [P_aug, Matrix.of_apply, lift57]
      rw [dif_pos i.isLt, dif_pos k.isLt]
    rw [h2] at h1
    exact h1.symm
  rw [hP, Fin.sum_univ_seven]
  simp +decide [Fin.sum_univ_succ, Xsig_aug, weights_, lambda_, n_aug_,
    x_aug_lift, e3, e4, e5, e6]
  linear_combination ((L (lift57 i) 0 * L (lift57 k) 0
    + L (lift57 i) 1 * L (lift57 k) 1 + L (lift57 i) 2 * L (lift57 k) 2
    + L (lift57 i) 3 * L (lift57 k) 3 + L (lift57 i) 4 * L (lift57 k) 4
    + L (lift57 i) 5 * L (lift57 k) 5 + L (lift57 i) 6 * L (lift57 k) 6) / 3)
    * sqrt_lambda_sq

/-- Helper: `normalizeAngle 0 = 0`. -/
theorem normalizeAngle_zero : normalizeAngle 0 = 0 :=
  normalizeAngle_of_mem (by linarith [Real.pi_pos]) (le_of_lt Real.pi_pos)

/-- C5: (amended) with both process-noise standard deviations zero and
`Δt = 0`, the state mean is always exactly unchanged; the state covariance is
exactly unchanged provided `L` is a factor of the zero-noise augmented
covariance and every sigma-point yaw deviation `sqrt_lambda * L 3 c` lies in
`[-π, π]` (so that the normalization loops are no-ops). -/
theorem prediction_zero_dt_roundtrip (x : Fin 5 → ℝ)
    (P : Matrix (Fin 5) (Fin 5) ℝ) (L : Matrix (Fin 7) (Fin 7) ℝ) :
    x_pred 0 x L = x ∧
    (L * Lᵀ = P_aug P 0 0 →
      (∀ c : Fin 7, |sqrt_lambda * L 3 c| ≤ Real.pi) →
      P_pred 0 x L = P) :=
  ⟨x_pred_zero x L, fun hL habs => P_pred_zero_of_factor x P L hL habs⟩

/-- C5 witness: the round trip at the zero state with the zero factor. -/
theorem prediction_zero_dt_witness :
    x_pred 0 (fun _ => 0) 0 = (fun _ => 0) ∧
    P_pred 0 (fun _ => 0) 0 = 0 := by
  refine ⟨(prediction_zero_dt_roundtrip (fun _ => 0) 0 0).1,
    (prediction_zero_dt_roundtrip (fun _ => 0) 0 0).2 ?_ ?_⟩
  · ext i j
    simp [P_aug, Matrix.mul_apply]
  · intro c
    simp [Real.pi_nonneg]

/-- Helper: the spreading factor is `√3`. -/
theorem sqrt_lambda_eq : sqrt_lambda = Real.sqrt 3 := by
  have h : lambda_ + (n_aug_ : ℝ) = 3 := by norm_num [lambda_, n_aug_]
  rw [sqrt_lambda, h]

/-- Helper: numeric bounds for `√3`. -/
theorem sqrt_three_bounds : (1.7:ℝ) < Real.sqrt 3 ∧ Real.sqrt 3 < 1.74 :=
  ⟨(Real.lt_sqrt (by norm_num)).mpr (by norm_num),
   (Real.sqrt_lt' (by norm_num)).mpr (by norm_num)⟩

/-- C5 counterexample: for the valid input `x_cex5`, `P_cex5` (symmetric
positive semi-definite, with zero process noise), whose augmented covariance
has the genuine lower-triangular Cholesky factor `L_cex5`, a `Δt = 0`
prediction changes the covariance: the yaw deviations `±2√3` exceed `π`, the
normalization loops fire, and the recombined yaw variance drops below 4. -/
theorem prediction_zero_dt_cex :
    L_cex5 * L_cex5ᵀ = P_aug P_cex5 0 0 ∧
    (∀ i j : Fin 7, (i : ℕ) < (j : ℕ) → L_cex5 i j = 0) ∧
    P_cex5.PosSemidef ∧
    P_pred 0 x_cex5 L_cex5 ≠ P_cex5 := by
  obtain ⟨hs_lb, hs_ub⟩ := sqrt_three_bounds
  have hpi_lb := Real.pi_gt_d2
  have hpi_ub := Real.pi_lt_d2
  refine ⟨?_, ?_, ?_, ?_⟩
  · rw [L_cex5, Matrix.diagonal_transpose, Matrix.diagonal_mul_diagonal]
    ext i j
    fin_cases i <;> fin_cases j <;>
      simp +decide [P_aug, P_cex5, Matrix.diagonal] <;> norm_num
  · intro i j hij
    exact Matrix.diagonal_apply_ne _ (Fin.ne_of_val_ne (Nat.ne_of_lt hij))
  · refine Matrix.PosSemidef.diagonal ?_
    intro i
    fin_cases i <;> simp +decide
  · have hgt : Real.pi < sqrt_lambda * 2 := by
      rw [sqrt_lambda_eq]
      nlinarith
    have hle : sqrt_lambda * 2 - 2 * Real.pi ≤ Real.pi := by
      rw [sqrt_lambda_eq]
      nlinarith
    have hge : -Real.pi ≤ sqrt_lambda * 2 - 2 * Real.pi := by linarith
    have hneg : -(sqrt_lambda * 2) ≤ Real.pi := by
      rw [sqrt_lambda_eq]
      nlinarith [Real.sqrt_nonneg (3:ℝ)]
    have hlt2 : -(sqrt_lambda * 2) < -Real.pi := by linarith
    have hge2 : -Real.pi ≤ -(sqrt_lambda * 2) + 2 * Real.pi := by
      rw [sqrt_lambda_eq]
      nlinarith
    have hn1 : normalizeAngle (sqrt_lambda * 2)
        = sqrt_lambda * 2 - 2 * Real.pi := by
      rw [normalizeAngle, wrapDown, dif_pos hgt, wrapDown_of_le hle]
      exact wrapUp_of_ge hge
    have hn2 : normalizeAngle (-(sqrt_lambda * 2))
        = -(sqrt_lambda * 2) + 2 * Real.pi := by
      rw [normalizeAngle, wrapDown_of_le hneg, wrapUp, dif_pos hlt2]
      exact wrapUp_of_ge hge2
    have hval : P_pred 0 x_cex5 L_cex5 3 3
        = 0.5 / 3 * ((sqrt_lambda * 2 - 2 * Real.pi) * (sqrt_lambda * 2 - 2 * Real.pi))
          + 0.5 / 3 * ((-(sqrt_lambda * 2) + 2 * Real.pi) * (-(sqrt_lambda * 2) + 2 * Real.pi)) := by
      rw [P_pred_zero_eq, Matrix.sum_apply]
      simp +decide [Matrix.smul_apply, Matrix.vecMulVec_apply, smul_eq_mul,
        x_diff_n, Function.update_same, Fin.sum_univ_succ, Xsig_aug, weights_,
        lambda_, n_aug_, x_aug, x_cex5, L_cex5, Matrix.diagonal,
        normalizeAngle_zero, show lift57 3 = (3 : Fin 7) from rfl,
        Matrix.cons_val_succ, hn1, hn2]
    intro heq
    have h33 := congrArg (fun M => M 3 3) heq
    simp only [hval] at h33
    have h33r : P_cex5 3 3 = 4 := by
      simp [P_cex5, Matrix.diagonal]
    rw [h33r] at h33
    rw [sqrt_lambda_eq] at h33
    nlinarith

/-- Helper: a weighted sum of self outer products is symmetric. -/
theorem sum_vecMulVec_isSymm {n : ℕ} (w : Fin 15 → ℝ) (u : Fin 15 → Fin n → ℝ) :
    (∑ j : Fin 15, w j • Matrix.vecMulVec (u j) (u j)).IsSymm := by
  rw [Matrix.IsSymm, Matrix.transpose_sum]
  refine Finset.sum_congr rfl fun j _ => ?_
  rw [Matrix.transpose_smul]
  congr 1
  ext i k
  simp [Matrix.vecMulVec_apply, mul_comm]

/-- Helper: the predicted covariance is symmetric, unconditionally. -/
theorem P_pred_isSymm (delta_t : ℝ) (x : Fin 5 → ℝ)
    (L : Matrix (Fin 7) (Fin 7) ℝ) : (P_pred delta_t x L).IsSymm :=
  sum_vecMulVec_isSymm _ _

/-- Helper: the covariance produced by `UpdateLidar`, unfolded. -/
theorem UpdateLidar_P (std_laspx std_laspy : ℝ) (x : Fin 5 → ℝ)
    (P : Matrix (Fin 5) (Fin 5) ℝ) (z : Fin 2 → ℝ) :
    (UpdateLidar std_laspx std_laspy x P z).P =
      (1 - P * H_laserᵀ * (H_laser * P * H_laserᵀ + R_laser std_laspx std_laspy)⁻¹
        * H_laser) * P := rfl

/-- Helper: the covariance produced by `UpdateRadar`, unfolded. -/
theorem UpdateRadar_P (std_radr std_radphi std_radrd : ℝ) (x : Fin 5 → ℝ)
    (P : Matrix (Fin 5) (Fin 5) ℝ) (Xp : Fin 15 → Fin 5 → ℝ) (z : Fin 3 → ℝ) :
    (UpdateRadar std_radr std_radphi std_radrd x P Xp z).P =
      P - (Tc x Xp * (S_radar std_radr std_radphi std_radrd Xp)⁻¹)
        * S_radar std_radr std_radphi std_radrd Xp
        * (Tc x Xp * (S_radar std_radr std_radphi std_radrd Xp)⁻¹)ᵀ := rfl

/-- Helper: the radar innovation covariance is symmetric. -/
theorem S_radar_isSymm (std_radr std_radphi std_radrd : ℝ)
    (Xp : Fin 15 → Fin 5 → ℝ) :
    (S_radar std_radr std_radphi std_radrd Xp).IsSymm := by
  rw [S_radar]
  refine Matrix.IsSymm.add (sum_vecMulVec_isSymm _ _) ?_
  ext i j
  fin_cases i <;> fin_cases j <;>
    simp [R_radar, Matrix.vecHead, Matrix.vecTail]

/-- Helper: the radar-updated covariance is symmetric whenever the input
covariance is. -/
theorem UpdateRadar_P_isSymm (std_radr std_radphi std_radrd : ℝ)
    (x : Fin 5 → ℝ) (P : Matrix (Fin 5) (Fin 5) ℝ) (Xp : Fin 15 → Fin 5 → ℝ)
    (z : Fin 3 → ℝ) (hP : P.IsSymm) :
    ((UpdateRadar std_radr std_radphi std_radrd x P Xp z).P).IsSymm := by
  have hS := (S_radar_isSymm std_radr std_radphi std_radrd Xp).eq
  rw [UpdateRadar_P, Matrix.IsSymm, Matrix.transpose_sub, hP.eq]
  congr 1
  calc ((Tc x Xp * (S_radar std_radr std_radphi std_radrd Xp)⁻¹)
        * S_radar std_radr std_radphi std_radrd Xp
        * (Tc x Xp * (S_radar std_radr std_radphi std_radrd Xp)⁻¹)ᵀ)ᵀ
      = ((Tc x Xp * (S_radar std_radr std_radphi std_radrd Xp)⁻¹)ᵀ)ᵀ
        * ((Tc x Xp * (S_radar std_radr std_radphi std_radrd Xp)⁻¹)
            * S_radar std_radr std_radphi std_radrd Xp)ᵀ :=
        Matrix.transpose_mul _ _
    _ = (Tc x Xp * (S_radar std_radr std_radphi std_radrd Xp)⁻¹)
        * ((S_radar std_radr std_radphi std_radrd Xp)ᵀ
            * (Tc x Xp * (S_radar std_radr std_radphi std_radrd Xp)⁻¹)ᵀ) := by
        rw [Matrix.transpose_transpose, Matrix.transpose_mul]
    _ = (Tc x Xp * (S_radar std_radr std_radphi std_radrd Xp)⁻¹)
        * S_radar std_radr std_radphi std_radrd Xp
        * (Tc x Xp * (S_radar std_radr std_radphi std_radrd Xp)⁻¹)ᵀ := by
        rw [hS]
        simp only [Matrix.mul_assoc]

/-- Helper: commuting a symmetric matrix across a dot product. -/
theorem dotProduct_mulVec_comm {n : Type} [Fintype n] (M : Matrix n n ℝ)
    (hM : Mᵀ = M) (x y : n → ℝ) :
    x ⬝ᵥ (M *ᵥ y) = y ⬝ᵥ (M *ᵥ x) := by
  rw [Matrix.dotProduct_mulVec, Matrix.dotProduct_comm, ← Matrix.mulVec_transpose,
    hM]

/-- Helper: the covariance produced by the optimal linear correction stays
positive semi-definite: `P - P Hᵀ S⁻¹ (H P)` with `S = H P Hᵀ + R`, for
`P` positive semi-definite, `R` positive semi-definite and `S` invertible. -/
theorem kalman_correction_psd {m n : Type} [Fintype m] [Fintype n]
    [DecidableEq m] (P : Matrix n n ℝ) (Rm : Matrix m m ℝ) (H : Matrix m n ℝ)
    (hP : P.PosSemidef) (hR : Rm.PosSemidef)
    (hinv : (H * P * Hᵀ + Rm) * (H * P * Hᵀ + Rm)⁻¹ = 1) :
    (P - P * Hᵀ * (H * P * Hᵀ + Rm)⁻¹ * (H * P)).PosSemidef := by
  have hstar : ∀ {k : Type} (u : k → ℝ), star u = u := fun u =>
    funext fun i => star_trivial _
  have hPt : Pᵀ = P := by
    rw [← Matrix.conjTranspose_eq_transpose_of_trivial]
    exact hP.1
  have hRt : Rmᵀ = Rm := by
    rw [← Matrix.conjTranspose_eq_transpose_of_trivial]
    exact hR.1
  have hSt : (H * P * Hᵀ + Rm)ᵀ = H * P * Hᵀ + Rm := by
    rw [Matrix.transpose_add, hRt, Matrix.transpose_mul, Matrix.transpose_mul,
      Matrix.transpose_transpose, hPt, Matrix.mul_assoc]
  constructor
  · rw [Matrix.IsHermitian, Matrix.conjTranspose_eq_transpose_of_trivial,
      Matrix.transpose_sub, hPt]
    congr 1
    rw [Matrix.transpose_mul, Matrix.transpose_mul, Matrix.transpose_mul,
      Matrix.transpose_nonsing_inv, hSt, Matrix.transpose_mul,
      Matrix.transpose_transpose, hPt]
    simp only [Matrix.mul_assoc]
  · intro v
    set S := H * P * Hᵀ + Rm with hS
    set w := (H * P) *ᵥ v with hw
    set q := S⁻¹ *ᵥ w with hq
    set a := v - Hᵀ *ᵥ q with ha
    have hSq : S *ᵥ q = w := by
      rw [hq, Matrix.mulVec_mulVec, hinv, Matrix.one_mulVec]
    have e2 : (P * Hᵀ * S⁻¹ * (H * P)) *ᵥ v = P *ᵥ (Hᵀ *ᵥ q) := by
      rw [hq, hw, ← Matrix.mulVec_mulVec, ← Matrix.mulVec_mulVec,
        ← Matrix.mulVec_mulVec]
    have e3 : v ⬝ᵥ (P *ᵥ (Hᵀ *ᵥ q)) = q ⬝ᵥ w := by
      rw [Matrix.dotProduct_mulVec v P, Matrix.mulVec_transpose,
        Matrix.dotProduct_comm, ← Matrix.dotProduct_mulVec,
        ← Matrix.mulVec_transpose, hPt, Matrix.mulVec_mulVec, ← hw]
    have e5 : q ⬝ᵥ ((H * P * Hᵀ) *ᵥ q) = (Hᵀ *ᵥ q) ⬝ᵥ (P *ᵥ (Hᵀ *ᵥ q)) := by
      rw [← Matrix.mulVec_mulVec, ← Matrix.mulVec_mulVec,
        Matrix.dotProduct_mulVec q H, ← Matrix.mulVec_transpose]
    have e4 : star a ⬝ᵥ (P *ᵥ a)
        = v ⬝ᵥ (P *ᵥ v) - 2 * (q ⬝ᵥ w) + q ⬝ᵥ ((H * P * Hᵀ) *ᵥ q) := by
      rw [hstar, ha, Matrix.mulVec_sub, Matrix.dotProduct_sub,
        Matrix.sub_dotProduct, Matrix.sub_dotProduct,
        dotProduct_mulVec_comm P hPt (Hᵀ *ᵥ q) v, e3, ← e5]
      ring
    have e6 : q ⬝ᵥ ((H * P * Hᵀ) *ᵥ q) + q ⬝ᵥ (Rm *ᵥ q) = q ⬝ᵥ w := by
      rw [← Matrix.dotProduct_add, ← Matrix.add_mulVec, ← hS, hSq]
    have efin : star a ⬝ᵥ (P *ᵥ a) + star q ⬝ᵥ (Rm *ᵥ q)
        = v ⬝ᵥ (P *ᵥ v) - q ⬝ᵥ w := by
      rw [e4, hstar]
      linarith
    have lhs_eq : star v ⬝ᵥ ((P - P * Hᵀ * S⁻¹ * (H * P)) *ᵥ v)
        = v ⬝ᵥ (P *ᵥ v) - q ⬝ᵥ w := by
      rw [hstar, Matrix.sub_mulVec, Matrix.dotProduct_sub, e2, e3]
    rw [lhs_eq, ← efin]
    exact add_nonneg (hP.2 a) (hR.2 q)

/-- Helper: the lidar noise covariance is positive definite when both noise
standard deviations are nonzero (positive). -/
theorem R_laser_posDef {std_laspx std_laspy : ℝ} (h1 : 0 < std_laspx)
    (h2 : 0 < std_laspy) : (R_laser std_laspx std_laspy).PosDef := by
  constructor
  · rw [Matrix.IsHermitian, Matrix.conjTranspose_eq_transpose_of_trivial]
    ext i j
    fin_cases i <;> fin_cases j <;> simp [R_laser]
  · intro v hv
    have hs : star v = v := funext fun i => star_trivial _
    rw [hs]
    have hexp : v ⬝ᵥ ((R_laser std_laspx std_laspy) *ᵥ v)
        = std_laspx * std_laspx * (v 0 * v 0)
          + std_laspy * std_laspy * (v 1 * v 1) := by
      simp [Matrix.dotProduct, Matrix.mulVec, R_laser, Fin.sum_univ_two]
      ring
    rw [hexp]
    rcases Function.ne_iff.mp hv with ⟨i, hi⟩
    fin_cases i
    · have hi' : v 0 ≠ 0 := hi
      nlinarith [mul_self_pos.mpr hi', mul_self_nonneg (v 1), mul_pos h1 h1,
        mul_pos h2 h2, mul_self_nonneg (v 0)]
    · have hi' : v 1 ≠ 0 := hi
      nlinarith [mul_self_pos.mpr hi', mul_self_nonneg (v 0), mul_pos h1 h1,
        mul_pos h2 h2, mul_self_nonneg (v 1)]

/-- Helper: positive semi-definiteness gives plain symmetry over `ℝ`. -/
theorem isSymm_of_posSemidef {n : Type} [Fintype n]
    {M : Matrix n n ℝ} (h : M.PosSemidef) : M.IsSymm := by
  rw [Matrix.IsSymm, ← Matrix.conjTranspose_eq_transpose_of_trivial]
  exact h.1

/-- Helper: the lidar innovation covariance is positive definite, hence
invertible, for positive noise standard deviations and `P` positive
semi-definite. -/
theorem S_laser_posDef {std_laspx std_laspy : ℝ} (P : Matrix (Fin 5) (Fin 5) ℝ)
    (hP : P.PosSemidef) (h1 : 0 < std_laspx) (h2 : 0 < std_laspy) :
    (H_laser * P * H_laserᵀ + R_laser std_laspx std_laspy).PosDef := by
  refine Matrix.PosDef.posSemidef_add ?_ (R_laser_posDef h1 h2)
  have h := hP.mul_mul_conjTranspose_same H_laser
  rwa [Matrix.conjTranspose_eq_transpose_of_trivial] at h

/-- Helper: the lidar update keeps the covariance symmetric and positive
semi-definite. -/
theorem UpdateLidar_P_psd {std_laspx std_laspy : ℝ} (x : Fin 5 → ℝ)
    (P : Matrix (Fin 5) (Fin 5) ℝ) (z : Fin 2 → ℝ) (hP : P.PosSemidef)
    (h1 : 0 < std_laspx) (h2 : 0 < std_laspy) :
    ((UpdateLidar std_laspx std_laspy x P z).P).IsSymm ∧
    ((UpdateLidar std_laspx std_laspy x P z).P).PosSemidef := by
  have hSpd := S_laser_posDef P hP h1 h2
  have hinv : (H_laser * P * H_laserᵀ + R_laser std_laspx std_laspy)
      * (H_laser * P * H_laserᵀ + R_laser std_laspx std_laspy)⁻¹ = 1 :=
    Matrix.mul_nonsing_inv _ hSpd.det_pos.ne'.isUnit
  have heq : (UpdateLidar std_laspx std_laspy x P z).P
      = P - P * H_laserᵀ
          * (H_laser * P * H_laserᵀ + R_laser std_laspx std_laspy)⁻¹
          * (H_laser * P) := by
    rw [UpdateLidar_P, Matrix.sub_mul, Matrix.one_mul, Matrix.mul_assoc]
  have hpsd := kalman_correction_psd P (R_laser std_laspx std_laspy) H_laser
    hP (R_laser_posDef h1 h2).posSemidef hinv
  rw [heq]
  exact ⟨isSymm_of_posSemidef hpsd, hpsd⟩

/-- C3: (amended) the state covariance stays symmetric after every
`Prediction` (unconditionally in the factor `L`), after every `UpdateLidar`
and after every `UpdateRadar` (whenever the incoming covariance is
symmetric); moreover `UpdateLidar` preserves positive semi-definiteness
(its innovation covariance is positive definite, since the lidar noise
standard deviations are positive).  Positive semi-definiteness is NOT
preserved by `Prediction` or by `UpdateRadar` (see the counterexample). -/
theorem covariance_invariants :
    (∀ (delta_t : ℝ) (x : Fin 5 → ℝ) (L : Matrix (Fin 7) (Fin 7) ℝ),
      (P_pred delta_t x L).IsSymm) ∧
    (∀ (std_laspx std_laspy : ℝ) (x : Fin 5 → ℝ)
      (P : Matrix (Fin 5) (Fin 5) ℝ) (z : Fin 2 → ℝ),
      P.PosSemidef → 0 < std_laspx → 0 < std_laspy →
      ((UpdateLidar std_laspx std_laspy x P z).P).IsSymm ∧
      ((UpdateLidar std_laspx std_laspy x P z).P).PosSemidef) ∧
    (∀ (std_radr std_radphi std_radrd : ℝ) (x : Fin 5 → ℝ)
      (P : Matrix (Fin 5) (Fin 5) ℝ) (Xp : Fin 15 → Fin 5 → ℝ)
      (z : Fin 3 → ℝ), P.IsSymm →
      ((UpdateRadar std_radr std_radphi std_radrd x P Xp z).P).IsSymm) :=
  ⟨P_pred_isSymm,
   fun _ _ x P z hP h1 h2 => UpdateLidar_P_psd x P z hP h1 h2,
   fun sr sphi srd x P Xp z hP => UpdateRadar_P_isSymm sr sphi srd x P Xp z hP⟩

/-- C3 witness: the invariants instantiated at concrete states. -/
theorem covariance_invariants_witness :
    (P_pred 1 (fun _ => 0) 1).IsSymm ∧
    ((UpdateLidar 1 1 (fun _ => 0) 0 (fun _ => 0)).P).IsSymm ∧
    ((UpdateLidar 1 1 (fun _ => 0) 0 (fun _ => 0)).P).PosSemidef ∧
    ((UpdateRadar 1 1 1 (fun _ => 0) 0 (fun _ _ => 0) (fun _ => 0)).P).IsSymm := by
  have hl := covariance_invariants.2.1 1 1 (fun _ => 0) 0 (fun _ => 0)
    Matrix.PosSemidef.zero one_pos one_pos
  have hz : (0 : Matrix (Fin 5) (Fin 5) ℝ).IsSymm := by
    rw [Matrix.IsSymm, Matrix.transpose_zero]
  exact ⟨covariance_invariants.1 1 (fun _ => 0) 1, hl.1, hl.2,
    covariance_invariants.2.2 1 1 1 (fun _ => 0) 0 (fun _ _ => 0)
      (fun _ => 0) hz⟩

/-- Helper: the radar measurement model on a point of the positive x-axis. -/
theorem radarMeas_axis (a : ℝ) (ha : (0.001:ℝ) ≤ a) :
    radarMeas (fun i => if i = 0 then a else 0) = ![a, 0, 0] := by
  have hsq : Real.sqrt (a * a + 0 * 0) = a := by
    rw [show a * a + 0 * 0 = a ^ 2 by ring, Real.sqrt_sq (by linarith)]
  have hsq2 : Real.sqrt (a * a) = a := by
    rw [show a * a = a ^ 2 by ring, Real.sqrt_sq (by linarith)]
  have harg : atan2 0 a = 0 := by
    rw [atan2, show (⟨a, 0⟩ : ℂ) = ((a : ℝ) : ℂ) from rfl]
    exact Complex.arg_ofReal_of_nonneg (by linarith)
  have habs : |a| = a := abs_of_nonneg (by linarith)
  have hno : ¬ (a < 0.001) := not_lt.mpr ha
  funext i
  fin_cases i
  · simp +decide [radarMeas, hsq, hsq2, habs, hno]
  · simp +decide [radarMeas, harg]
  · simp +decide [radarMeas, hsq, hsq2, habs, hno]

/-- Helper: the mapped radar sigma points of the counterexample. -/
theorem Zsig_cex3 (j : Fin 15) :
    radarMeas (Xp_cex3 j)
      = ![if j = 1 then 1.5 else if j = 8 then 0.5 else 1, 0, 0] := by
  have h : Xp_cex3 j = fun i =>
      if i = 0 then (if j = 1 then (1.5:ℝ) else if j = 8 then 0.5 else 1) else 0 := rfl
  rw [h, radarMeas_axis]
  split_ifs <;> norm_num

/-- Helper: the predicted radar measurement mean of the counterexample. -/
theorem z_pred_cex3 : z_pred_r Xp_cex3 = ![1, 0, 0] := by
  funext i
  rw [z_pred_r]
  simp only [Zsig_cex3]
  fin_cases i <;>
    simp +decide [Fin.sum_univ_succ, weights_, lambda_, n_aug_] <;> norm_num

/-- Helper: the stored radar residual columns of the counterexample. -/
theorem z_diff_cex3 (j : Fin 15) :
    z_diff_c Xp_cex3 j
      = ![if j = 1 then 0.5 else if j = 8 then -0.5 else 0, 0, 0] := by
  rw [z_diff_c]
  funext i
  fin_cases i <;>
    simp +decide [z_diff_n, Function.update, Zsig_cex3, z_pred_cex3,
      normalizeAngle_zero] <;>
    split_ifs <;> norm_num

/-- Helper: the radar innovation covariance of the counterexample. -/
theorem S_cex3 :
    S_radar std_radr_ std_radphi_ std_radrd_ Xp_cex3
      = Matrix.diagonal ![13/75, 9/10000, 9/100] := by
  ext i k
  rw [S_radar, Matrix.add_apply, Matrix.sum_apply]
  simp only [Matrix.smul_apply, Matrix.vecMulVec_apply, smul_eq_mul,
    z_diff_cex3]
  fin_cases i <;> fin_cases k <;>
    simp +decide [Fin.sum_univ_succ, weights_, lambda_, n_aug_, R_radar,
      std_radr_, std_radphi_, std_radrd_, Matrix.diagonal, Matrix.vecHead,
      Matrix.vecTail] <;> norm_num

/-- Helper: the inverse of the counterexample's innovation covariance. -/
theorem Sinv_cex3 :
    (S_radar std_radr_ std_radphi_ std_radrd_ Xp_cex3)⁻¹
      = Matrix.diagonal ![75/13, 10000/9, 100/9] := by
  apply Matrix.inv_eq_right_inv
  rw [S_cex3, Matrix.diagonal_mul_diagonal]
  ext i k
  fin_cases i <;> fin_cases k <;>
    simp +decide [Matrix.diagonal, Matrix.one_apply, Matrix.vecHead,
      Matrix.vecTail] <;> norm_num

/-- Helper: the cross-correlation matrix of the counterexample. -/
theorem Tc_cex3 :
    Tc x_cex3 Xp_cex3
      = Matrix.of fun (i : Fin 5) (k : Fin 3) =>
          if (i : ℕ) = 0 ∧ (k : ℕ) = 0 then (1/12 : ℝ) else 0 := by
  have hxd : ∀ j : Fin 15, x_diff_n (fun i => Xp_cex3 j i - x_cex3 i)
      = fun i => if i = 0
          then (if j = 1 then (0.5:ℝ) else if j = 8 then -0.5 else 0)
          else 0 := by
    intro j
    funext i
    fin_cases i <;>
      simp +decide [x_diff_n, Function.update, Xp_cex3, x_cex3,
        normalizeAngle_zero] <;>
      split_ifs <;> norm_num
  ext i k
  rw [Tc, Matrix.sum_apply]
  simp only [Matrix.smul_apply, Matrix.vecMulVec_apply, smul_eq_mul, hxd,
    z_diff_cex3]
  fin_cases i <;> fin_cases k <;>
    simp +decide [Fin.sum_univ_succ, weights_, lambda_, n_aug_] <;> norm_num

/-- Helper: the radar update of the counterexample drives the `(0,0)` entry
of the covariance negative. -/
theorem radar_P00_cex3 :
    ((UpdateRadar std_radr_ std_radphi_ std_radrd_ x_cex3 P_cex3 Xp_cex3
      z_cex3).P) 0 0 < 0 := by
  rw [UpdateRadar_P, Matrix.sub_apply, Tc_cex3, Sinv_cex3, S_cex3]
  simp +decide [Matrix.mul_apply, Matrix.transpose_apply, Fin.sum_univ_three,
    Matrix.diagonal, P_cex3, Matrix.vecHead, Matrix.vecTail]
  norm_num

/-- Helper: a matrix with a negative diagonal entry is not positive
semi-definite. -/
theorem not_posSemidef_of_diag_neg {n : Type} [Fintype n] [DecidableEq n]
    {M : Matrix n n ℝ} {i : n} (h : M i i < 0) : ¬ M.PosSemidef := by
  intro hM
  have h2 := hM.2 (Pi.single i 1)
  have hs : star (Pi.single i 1 : n → ℝ) = Pi.single i 1 :=
    funext fun k => star_trivial _
  rw [hs] at h2
  have he : (Pi.single i 1 : n → ℝ) ⬝ᵥ (M *ᵥ Pi.single i 1) = M i i := by
    rw [Matrix.mulVec_single, Matrix.dotProduct]
    rw [Finset.sum_eq_single i]
    · simp
    · intro b _ hb
      simp [Pi.single_eq_of_ne hb]
    · intro hb
      exact absurd (Finset.mem_univ i) hb
  rw [he] at h2
  linarith

/-- Helper: `√(λ+n_aug) * g_cexp = π`. -/
theorem mul_g_cexp : sqrt_lambda * g_cexp = Real.pi := by
  rw [sqrt_lambda_eq, g_cexp, mul_comm,
    div_mul_cancel₀ _ (ne_of_gt (Real.sqrt_pos.mpr (by norm_num : (0:ℝ) < 3)))]

/-- Helper: `√(λ+n_aug) * h_cexp = 0.001`. -/
theorem mul_h_cexp : sqrt_lambda * h_cexp = 0.001 := by
  rw [sqrt_lambda_eq, h_cexp, mul_comm,
    div_mul_cancel₀ _ (ne_of_gt (Real.sqrt_pos.mpr (by norm_num : (0:ℝ) < 3)))]

/-- Helper: the x-position after one second of straight-line motion. -/
theorem predMotion_one_px (p : Fin 7 → ℝ) (h : |p 4| ≤ 0.001) :
    predMotion 1 p 0
      = p 0 + p 2 * Real.cos (p 3) + 0.5 * p 5 * Real.cos (p 3) := by
  rw [predMotion_straight 1 p h]
  simp

/-- Helper: x-position of propagated counterexample sigma point 0. -/
theorem ptpx_0 : Xsig_pred 1 x_cexp L_cexp 0 0 = 3 := by
  rw [Xsig_pred,
    show Xsig_aug (x_aug x_cexp) L_cexp 0 = x_aug x_cexp from rfl]
  rw [predMotion_one_px _ (by
    simp +decide [x_aug, x_cexp]
    try norm_num)]
  simp +decide [x_aug, x_cexp]

/-- Helper: x-position of propagated counterexample sigma point 1. -/
theorem ptpx_1 : Xsig_pred 1 x_cexp L_cexp 1 0 = 0.1 * sqrt_lambda - 3 := by
  rw [Xsig_pred,
    show Xsig_aug (x_aug x_cexp) L_cexp 1
        = fun k => x_aug x_cexp k + sqrt_lambda * L_cexp k 0 from rfl]
  rw [predMotion_one_px _ (by
    simp +decide [x_aug, x_cexp, L_cexp, mul_h_cexp, abs_le]
    try norm_num)]
  simp +decide [x_aug, x_cexp, L_cexp, mul_g_cexp, Real.cos_pi, Real.cos_neg]
  try ring

/-- Helper: x-position of propagated counterexample sigma point 2. -/
theorem ptpx_2 : Xsig_pred 1 x_cexp L_cexp 2 0 = -3 := by
  rw [Xsig_pred,
    show Xsig_aug (x_aug x_cexp) L_cexp 2
        = fun k => x_aug x_cexp k + sqrt_lambda * L_cexp k 1 from rfl]
  rw [predMotion_one_px _ (by
    simp +decide [x_aug, x_cexp, L_cexp, mul_h_cexp, abs_le]
    try norm_num)]
  simp +decide [x_aug, x_cexp, L_cexp, mul_g_cexp, Real.cos_pi, Real.cos_neg]
  try ring

/-- Helper: x-position of propagated counterexample sigma point 3. -/
theorem ptpx_3 : Xsig_pred 1 x_cexp L_cexp 3 0 = -3 - 0.1 * sqrt_lambda := by
  rw [Xsig_pred,
    show Xsig_aug (x_aug x_cexp) L_cexp 3
        = fun k => x_aug x_cexp k + sqrt_lambda * L_cexp k 2 from rfl]
  rw [predMotion_one_px _ (by
    simp +decide [x_aug, x_cexp, L_cexp, mul_h_cexp, abs_le]
    try norm_num)]
  simp +decide [x_aug, x_cexp, L_cexp, mul_g_cexp, Real.cos_pi, Real.cos_neg]
  try ring

/-- Helper: x-position of propagated counterexample sigma point 4. -/
theorem ptpx_4 : Xsig_pred 1 x_cexp L_cexp 4 0 = -3 := by
  rw [Xsig_pred,
    show Xsig_aug (x_aug x_cexp) L_cexp 4
        = fun k => x_aug x_cexp k + sqrt_lambda * L_cexp k 3 from rfl]
  rw [predMotion_one_px _ (by
    simp +decide [x_aug, x_cexp, L_cexp, mul_h_cexp, abs_le]
    try norm_num)]
  simp +decide [x_aug, x_cexp, L_cexp, mul_g_cexp, Real.cos_pi, Real.cos_neg]
  try ring

/-- Helper: x-position of propagated counterexample sigma point 5. -/
theorem ptpx_5 : Xsig_pred 1 x_cexp L_cexp 5 0 = (3:ℝ) := by
  rw [Xsig_pred,
    show Xsig_aug (x_aug x_cexp) L_cexp 5
        = fun k => x_aug x_cexp k + sqrt_lambda * L_cexp k 4 from rfl]
  rw [predMotion_one_px _ (by
    simp +decide [x_aug, x_cexp, L_cexp, mul_h_cexp, abs_le]
    try norm_num)]
  simp +decide [x_aug, x_cexp, L_cexp, mul_g_cexp, Real.cos_pi, Real.cos_neg]
  try ring

/-- Helper: x-position of propagated counterexample sigma point 6. -/
theorem ptpx_6 : Xsig_pred 1 x_cexp L_cexp 6 0 = 3 + 0.25 * sqrt_lambda := by
  rw [Xsig_pred,
    show Xsig_aug (x_aug x_cexp) L_cexp 6
        = fun k => x_aug x_cexp k + sqrt_lambda * L_cexp k 5 from rfl]
  rw [predMotion_one_px _ (by
    simp +decide [x_aug, x_cexp, L_cexp, mul_h_cexp, abs_le]
    try norm_num)]
  simp +decide [x_aug, x_cexp, L_cexp, mul_g_cexp, Real.cos_pi, Real.cos_neg]
  try ring

/-- Helper: x-position of propagated counterexample sigma point 7. -/
theorem ptpx_7 : Xsig_pred 1 x_cexp L_cexp 7 0 = (3:ℝ) := by
  rw [Xsig_pred,
    show Xsig_aug (x_aug x_cexp) L_cexp 7
        = fun k => x_aug x_cexp k + sqrt_lambda * L_cexp k 6 from rfl]
  rw [predMotion_one_px _ (by
    simp +decide [x_aug, x_cexp, L_cexp, mul_h_cexp, abs_le]
    try norm_num)]
  simp +decide [x_aug, x_cexp, L_cexp, mul_g_cexp, Real.cos_pi, Real.cos_neg]
  try ring

/-- Helper: x-position of propagated counterexample sigma point 8. -/
theorem ptpx_8 : Xsig_pred 1 x_cexp L_cexp 8 0 = -(0.1 * sqrt_lambda) - 3 := by
  rw [Xsig_pred,
    show Xsig_aug (x_aug x_cexp) L_cexp 8
        = fun k => x_aug x_cexp k - sqrt_lambda * L_cexp k 0 from rfl]
  rw [predMotion_one_px _ (by
    simp +decide [x_aug, x_cexp, L_cexp, mul_h_cexp, abs_le]
    try norm_num)]
  simp +decide [x_aug, x_cexp, L_cexp, mul_g_cexp, Real.cos_pi, Real.cos_neg]
  try ring

/-- Helper: x-position of propagated counterexample sigma point 9. -/
theorem ptpx_9 : Xsig_pred 1 x_cexp L_cexp 9 0 = -3 := by
  rw [Xsig_pred,
    show Xsig_aug (x_aug x_cexp) L_cexp 9
        = fun k => x_aug x_cexp k - sqrt_lambda * L_cexp k 1 from rfl]
  rw [predMotion_one_px _ (by
    simp +decide [x_aug, x_cexp, L_cexp, mul_h_cexp, abs_le]
    try norm_num)]
  simp +decide [x_aug, x_cexp, L_cexp, mul_g_cexp, Real.cos_pi, Real.cos_neg]
  try ring

/-- Helper: x-position of propagated counterexample sigma point 10. -/
theorem ptpx_10 : Xsig_pred 1 x_cexp L_cexp 10 0 = -3 + 0.1 * sqrt_lambda := by
  rw [Xsig_pred,
    show Xsig_aug (x_aug x_cexp) L_cexp 10
        = fun k => x_aug x_cexp k - sqrt_lambda * L_cexp k 2 from rfl]
  rw [predMotion_one_px _ (by
    simp +decide [x_aug, x_cexp, L_cexp, mul_h_cexp, abs_le]
    try norm_num)]
  simp +decide [x_aug, x_cexp, L_cexp, mul_g_cexp, Real.cos_pi, Real.cos_neg]
  try ring

/-- Helper: x-position of propagated counterexample sigma point 11. -/
theorem ptpx_11 : Xsig_pred 1 x_cexp L_cexp 11 0 = -3 := by
  rw [Xsig_pred,
    show Xsig_aug (x_aug x_cexp) L_cexp 11
        = fun k => x_aug x_cexp k - sqrt_lambda * L_cexp k 3 from rfl]
  rw [predMotion_one_px _ (by
    simp +decide [x_aug, x_cexp, L_cexp, mul_h_cexp, abs_le]
    try norm_num)]
  simp +decide [x_aug, x_cexp, L_cexp, mul_g_cexp, Real.cos_pi, Real.cos_neg]
  try ring

/-- Helper: x-position of propagated counterexample sigma point 12. -/
theorem ptpx_12 : Xsig_pred 1 x_cexp L_cexp 12 0 = (3:ℝ) := by
  rw [Xsig_pred,
    show Xsig_aug (x_aug x_cexp) L_cexp 12
        = fun k => x_aug x_cexp k - sqrt_lambda * L_cexp k 4 from rfl]
  rw [predMotion_one_px _ (by
    simp +decide [x_aug, x_cexp, L_cexp, mul_h_cexp, abs_le]
    try norm_num)]
  simp +decide [x_aug, x_cexp, L_cexp, mul_g_cexp, Real.cos_pi, Real.cos_neg]
  try ring

/-- Helper: x-position of propagated counterexample sigma point 13. -/
theorem ptpx_13 : Xsig_pred 1 x_cexp L_cexp 13 0 = 3 - 0.25 * sqrt_lambda := by
  rw [Xsig_pred,
    show Xsig_aug (x_aug x_cexp) L_cexp 13
        = fun k => x_aug x_cexp k - sqrt_lambda * L_cexp k 5 from rfl]
  rw [predMotion_one_px _ (by
    simp +decide [x_aug, x_cexp, L_cexp, mul_h_cexp, abs_le]
    try norm_num)]
  simp +decide [x_aug, x_cexp, L_cexp, mul_g_cexp, Real.cos_pi, Real.cos_neg]
  try ring

/-- Helper: x-position of propagated counterexample sigma point 14. -/
theorem ptpx_14 : Xsig_pred 1 x_cexp L_cexp 14 0 = (3:ℝ) := by
  rw [Xsig_pred,
    show Xsig_aug (x_aug x_cexp) L_cexp 14
        = fun k => x_aug x_cexp k - sqrt_lambda * L_cexp k 6 from rfl]
  rw [predMotion_one_px _ (by
    simp +decide [x_aug, x_cexp, L_cexp, mul_h_cexp, abs_le]
    try norm_num)]
  simp +decide [x_aug, x_cexp, L_cexp, mul_g_cexp, Real.cos_pi, Real.cos_neg]
  try ring

/-- Helper: the predicted mean x-position of the counterexample is `-5`
(the asymmetry of the four heading-flipped sigma-point pairs shifts it). -/
theorem x_pred_cexp : x_pred 1 x_cexp L_cexp 0 = -5 := by
  rw [x_pred]
  have f3 : (Fin.succ 2 : Fin 15) = 3 := rfl
  have f4 : ((Fin.succ 2).succ : Fin 15) = 4 := rfl
  have f5 : ((Fin.succ 2).succ.succ : Fin 15) = 5 := rfl
  have f6 : ((Fin.succ 2).succ.succ.succ : Fin 15) = 6 := rfl
  have f7 : ((Fin.succ 2).succ.succ.succ.succ : Fin 15) = 7 := rfl
  have f8 : ((Fin.succ 2).succ.succ.succ.succ.succ : Fin 15) = 8 := rfl
  have f9 : ((Fin.succ 2).succ.succ.succ.succ.succ.succ : Fin 15) = 9 := rfl
  have f10 : ((Fin.succ 2).succ.succ.succ.succ.succ.succ.succ : Fin 15) = 10 := rfl
  have f11 : ((Fin.succ 2).succ.succ.succ.succ.succ.succ.succ.succ : Fin 15) = 11 := rfl
  have f12 : ((Fin.succ 2).succ.succ.succ.succ.succ.succ.succ.succ.succ : Fin 15) = 12 := rfl
  have f13 : ((Fin.succ 2).succ.succ.succ.succ.succ.succ.succ.succ.succ.succ : Fin 15) = 13 := rfl
  have f14 : ((Fin.succ 2).succ.succ.succ.succ.succ.succ.succ.succ.succ.succ.succ : Fin 15) = 14 := rfl
  simp +decide [Fin.sum_univ_succ, weights_, lambda_, n_aug_,
    f3, f4, f5, f6, f7, f8, f9, f10, f11, f12, f13, f14,
    ptpx_0, ptpx_1, ptpx_2, ptpx_3, ptpx_4, ptpx_5, ptpx_6, ptpx_7,
    ptpx_8, ptpx_9, ptpx_10, ptpx_11, ptpx_12, ptpx_13, ptpx_14]
  ring

/-- Helper: the predicted covariance of the counterexample has a negative
`(0,0)` entry. -/
theorem P_pred_cexp_neg : P_pred 1 x_cexp L_cexp 0 0 < 0 := by
  have hs2 : sqrt_lambda ^ 2 = 3 := by
    rw [sq]
    exact sqrt_lambda_sq
  have hupd : ∀ d : Fin 5 → ℝ, x_diff_n d 0 = d 0 := fun d =>
    Function.update_noteq (by decide) _ _
  have f3 : (Fin.succ 2 : Fin 15) = 3 := rfl
  have f4 : ((Fin.succ 2).succ : Fin 15) = 4 := rfl
  have f5 : ((Fin.succ 2).succ.succ : Fin 15) = 5 := rfl
  have f6 : ((Fin.succ 2).succ.succ.succ : Fin 15) = 6 := rfl
  have f7 : ((Fin.succ 2).succ.succ.succ.succ : Fin 15) = 7 := rfl
  have f8 : ((Fin.succ 2).succ.succ.succ.succ.succ : Fin 15) = 8 := rfl
  have f9 : ((Fin.succ 2).succ.succ.succ.succ.succ.succ : Fin 15) = 9 := rfl
  have f10 : ((Fin.succ 2).succ.succ.succ.succ.succ.succ.succ : Fin 15) = 10 := rfl
  have f11 : ((Fin.succ 2).succ.succ.succ.succ.succ.succ.succ.succ : Fin 15) = 11 := rfl
  have f12 : ((Fin.succ 2).succ.succ.succ.succ.succ.succ.succ.succ.succ : Fin 15) = 12 := rfl
  have f13 : ((Fin.succ 2).succ.succ.succ.succ.succ.succ.succ.succ.succ.succ : Fin 15) = 13 := rfl
  have f14 : ((Fin.succ 2).succ.succ.succ.succ.succ.succ.succ.succ.succ.succ.succ : Fin 15) = 14 := rfl
  rw [P_pred, Matrix.sum_apply]
  simp only [Matrix.smul_apply, Matrix.vecMulVec_apply, smul_eq_mul, hupd]
  simp +decide [Fin.sum_univ_succ, weights_, lambda_, n_aug_, x_pred_cexp,
    f3, f4, f5, f6, f7, f8, f9, f10, f11, f12, f13, f14,
    ptpx_0, ptpx_1, ptpx_2, ptpx_3, ptpx_4, ptpx_5, ptpx_6, ptpx_7,
    ptpx_8, ptpx_9, ptpx_10, ptpx_11, ptpx_12, ptpx_13, ptpx_14]
  ring_nf
  nlinarith [hs2]

/-- Helper: the counterexample factor is lower triangular. -/
theorem L_cexp_lower : ∀ i j : Fin 7, (i : ℕ) < (j : ℕ) → L_cexp i j = 0 := by
  intro i j hij
  simp only [L_cexp, Matrix.of_apply]
  rw [if_neg (show ¬((i:ℕ) = 3 ∧ (j:ℕ) ≤ 3) by rintro ⟨h1, h2⟩; omega),
    if_neg (Fin.ne_of_val_ne (Nat.ne_of_lt hij))]

/-- Helper: the counterexample factor has a positive diagonal (so it is the
unique Cholesky factor of the positive definite augmented covariance). -/
theorem L_cexp_diag_pos : ∀ i : Fin 7, 0 < L_cexp i i := by
  have hg : 0 < g_cexp :=
    div_pos Real.pi_pos (Real.sqrt_pos.mpr (by norm_num))
  have hh : 0 < h_cexp :=
    div_pos (by norm_num) (Real.sqrt_pos.mpr (by norm_num))
  intro i
  fin_cases i <;> simp +decide [L_cexp, hg, hh] <;> norm_num

set_option maxHeartbeats 1000000 in

/-- Helper: `L_cexp` factors the augmented covariance of `P_cexp` with the
constructor noise deviations. -/
theorem L_cexp_factor : L_cexp * L_cexpᵀ = P_aug P_cexp std_a_ std_yawdd_ := by
  ext i j
  rw [Matrix.mul_apply, Fin.sum_univ_seven]
  fin_cases i <;> fin_cases j <;>
    simp +decide [Matrix.transpose_apply, L_cexp, P_aug, P_cexp,
      Matrix.mul_apply, Fin.sum_univ_five, L5_cexp, std_a_, std_yawdd_] <;>
    try ring

/-- Helper: the counterexample state covariance is positive semi-definite. -/
theorem P_cexp_psd : P_cexp.PosSemidef := by
  have h := Matrix.posSemidef_self_mul_conjTranspose L5_cexp
  rwa [Matrix.conjTranspose_eq_transpose_of_trivial] at h

/-- C3 counterexample: positive semi-definiteness is not preserved.
Prediction: with the valid state `x_cexp` (speed 3), the positive
semi-definite covariance `P_cexp`, the constructor noise deviations and
`Δt = 1`, where `L_cexp` is the genuine (lower-triangular,
positive-diagonal) Cholesky factor of the augmented covariance, the
recombined covariance has a negative `(0,0)` entry: the negative weight
`-4/3` of sigma point 0 dominates after four heading-flipped (`±π`)
sigma-point pairs land on the same side.  Radar: with the valid symmetric
positive semi-definite covariance `P_cex3` and retained sigma points
`Xp_cex3`, the update `P -= K S Kᵀ` drives the `(0,0)` entry negative. -/
theorem covariance_psd_cex :
    ((∀ i j : Fin 7, (i : ℕ) < (j : ℕ) → L_cexp i j = 0) ∧
      (∀ i : Fin 7, 0 < L_cexp i i) ∧
      L_cexp * L_cexpᵀ = P_aug P_cexp std_a_ std_yawdd_ ∧
      P_cexp.PosSemidef ∧
      ¬ (P_pred 1 x_cexp L_cexp).PosSemidef) ∧
    (P_cex3.PosSemidef ∧
      ¬ ((UpdateRadar std_radr_ std_radphi_ std_radrd_ x_cex3 P_cex3 Xp_cex3
          z_cex3).P).PosSemidef) := by
  refine ⟨⟨L_cexp_lower, L_cexp_diag_pos, L_cexp_factor, P_cexp_psd,
    not_posSemidef_of_diag_neg P_pred_cexp_neg⟩, ?_,
    not_posSemidef_of_diag_neg radar_P00_cex3⟩
  refine Matrix.PosSemidef.diagonal ?_
  intro i
  norm_num
